import Mathlib

/-!
# go-websocket: frame reader, frame writer, session loop and handshake

A shallow embedding of `frames.go` and `main.go`.

* A byte is a `Fin 256`.
* Go's `int` is the 64-bit two's-complement integer of the usual targets. It is
  kept as an `Int`; a left shift wraps around with `wrapInt64`, and `|` acts
  on the 64-bit two's-complement patterns.
* A connection delivers a finite sequence of bytes and then reports end of
  stream. Reading is a function of the bytes not yet consumed, and returns the
  bytes left over.
* `conn.Write` either takes the whole buffer or fails; which of the two is
  decided by a list of results carried by the connection.
* A run-time panic (`make` with a negative length) is an outcome of its own.
* What the session does is recorded as a list of events: reads, writes, printed
  lines, the creation of `output.bin` and the closing of the connection.
-/

namespace GoWebsocket

/-! ## Bytes and machine integers -/

abbrev Byte := Fin 256

/-- Go's `byte(x)` for an `int` x: the low eight bits. -/
def byte (x : Int) : Byte := ⟨(x % 256).toNat, by omega⟩

/-- Go's `int(b)` for a byte b. -/
def int (b : Byte) : Int := (b.val : Int)

/-- The value of a 64-bit two's-complement `int` after an operation whose
mathematical result is x. -/
def wrapInt64 (x : Int) : Int := Int.bmod x (2 ^ 64)

/-- Go's `x << k` on `int`. -/
def shl (x : Int) (k : Nat) : Int := wrapInt64 (x * 2 ^ k)

/-- Go's `x >> k` on `int`: the arithmetic shift, which rounds down. -/
def shr (x : Int) (k : Nat) : Int := x / 2 ^ k

/-- The 64-bit two's-complement pattern of an `int`. -/
def bits64 (x : Int) : Nat := (x % 2 ^ 64).toNat

/-- Go's `a | b` on `int`. -/
def ior (a b : Int) : Int := wrapInt64 ((bits64 a ||| bits64 b : Nat) : Int)

/-- Go's `a & b` on bytes. -/
def band (a b : Byte) : Byte := ⟨a.val &&& b.val, lt_of_le_of_lt Nat.and_le_left a.isLt⟩

/-- Go's `a | b` on bytes. -/
def bor (a b : Byte) : Byte := ⟨a.val ||| b.val, Nat.or_lt_two_pow (n := 8) a.isLt b.isLt⟩

/-- Go's `a ^ b` on bytes. -/
def bxor (a b : Byte) : Byte := ⟨a.val ^^^ b.val, Nat.xor_lt_two_pow (n := 8) a.isLt b.isLt⟩

/-! ## Opcodes -/

abbrev Opcode := Int

def Continuation : Opcode := 0x0
def Text : Opcode := 0x1
def Binary : Opcode := 0x2
def Close : Opcode := 0x8
def Ping : Opcode := 0x9
def Pong : Opcode := 0xA

/-! ## Errors -/

/-- The error values the program meets. -/
inductive GoError where
  /-- The value `io.EOF`. -/
  | EOF
  /-- The value `io.ErrUnexpectedEOF`. -/
  | ErrUnexpectedEOF
  /-- The error built by `fmt.Errorf("payload too large: ...")`. -/
  | payloadTooLarge (length : Int) (max : Int)
  /-- An error returned by `conn.Write`. -/
  | writeFailed (code : Nat)
  deriving DecidableEq, Repr

/-- Go's `errors.Is(err, io.EOF)`: none of the errors above wraps another. -/
def isEOF (e : GoError) : Bool :=
  match e with
  | .EOF => true
  | _ => false

/-- A value or an error. -/
inductive Res (α : Type) where
  | ok (a : α)
  | error (err : GoError)
  deriving DecidableEq, Repr

/-! ## Reading from the connection -/

/-- Go's `io.ReadFull(conn, buf)` with `len(buf) = n`, on a connection that
still has the bytes s to deliver before its end. Returns the bytes read or
the error, and the bytes left on the connection. With no byte read the error
is `io.EOF`, with some but fewer than n it is `io.ErrUnexpectedEOF`; a buffer
of length zero is filled without reading. -/
def readFull (s : List Byte) (n : Nat) : Res (List Byte) × List Byte :=
  if n ≤ s.length then (.ok (s.take n), s.drop n)
  else if s.length = 0 then (.error .EOF, [])
  else (.error .ErrUnexpectedEOF, [])

/-- Source: `readPayloadLength`. -/
def readPayloadLength (s : List Byte) (length : Int) : Res Int × List Byte :=
  if length < 126 then (.ok length, s)
  else if length = 126 then
    match readFull s 2 with
    | (.error err, s1) => (.error err, s1)
    | (.ok payloadLength, s1) =>
      (.ok (ior (shl (int (payloadLength.getD 0 0)) 8) (int (payloadLength.getD 1 0))), s1)
  else
    match readFull s 8 with
    | (.error err, s1) => (.error err, s1)
    | (.ok payloadLength, s1) =>
      (.ok ((List.range 8).foldl
        (fun length i => ior length (shl (int (payloadLength.getD i 0)) (56 - i * 8)))
        length), s1)

/-- The number of bytes `readPayloadLength` reads for a 7-bit length field. -/
def extLen (length : Int) : Nat :=
  if length < 126 then 0 else if length = 126 then 2 else 8

/-- The length `readPayloadLength` resolves from a 7-bit length field and the
bytes it has read. -/
def resolveLength (length : Int) (payloadLength : List Byte) : Int :=
  if length < 126 then length
  else if length = 126 then
    ior (shl (int (payloadLength.getD 0 0)) 8) (int (payloadLength.getD 1 0))
  else
    (List.range 8).foldl
      (fun length i => ior length (shl (int (payloadLength.getD i 0)) (56 - i * 8)))
      length

/-- The number of bytes of mask key that follow the length, by the second
header byte. -/
def maskLen (b2 : Byte) : Nat := if band b2 0x80 != 0 then 4 else 0

/-- The four values `readFrame` returns; a nil payload is `none`. -/
structure FrameResult where
  fin : Bool
  opcode : Opcode
  payload : Option (List Byte)
  err : Option GoError
  deriving DecidableEq, Repr

/-- How a call of `readFrame` ends, with the bytes left on the connection. -/
inductive ReadOutcome where
  | returned (r : FrameResult) (rest : List Byte)
  /-- The run-time panic of `make([]byte, length)` with a negative length. -/
  | panicked (rest : List Byte)
  deriving DecidableEq, Repr

/-- The return statement `return false, -1, nil, err`. -/
def failed (err : GoError) : FrameResult := ⟨false, -1, none, some err⟩

/-- The administrative cap on the payload length, `10*1024*1024`. -/
def maxPayload : Int := 10 * 1024 * 1024

/-- The unmasking loop `for i := range payload { payload[i] ^= maskKey[i%4] }`. -/
def unmask (maskKey : List Byte) (payload : List Byte) : List Byte :=
  payload.mapIdx (fun i b => bxor b (maskKey.getD (i % 4) 0))

/-- Source: `readFrame`. -/
def readFrame (s : List Byte) : ReadOutcome :=
  match readFull s 2 with
  | (.error err, s1) => .returned (failed err) s1
  | (.ok header, s1) =>
    let byte1 := header.getD 0 0
    let byte2 := header.getD 1 0
    let fin := band byte1 0x80 != 0
    let opcode : Opcode := int (band byte1 0x0F)
    let isMasked := band byte2 0x80 != 0
    let length := int (band byte2 0x7F)
    match readPayloadLength s1 length with
    | (.error err, s2) => .returned (failed err) s2
    | (.ok length, s2) =>
      -- `var maskKey [4]byte`, filled only when the frame is masked
      match (if isMasked then readFull s2 4 else (.ok [0, 0, 0, 0], s2)) with
      | (.error err, s3) => .returned (failed err) s3
      | (.ok maskKey, s3) =>
        if length > maxPayload then
          .returned (failed (.payloadTooLarge length maxPayload)) s3
        else if length < 0 then .panicked s3
        else
          match readFull s3 length.toNat with
          | (.error err, s4) => .returned (failed err) s4
          | (.ok payload, s4) =>
            .returned ⟨fin, opcode, some (if isMasked then unmask maskKey payload else payload),
              none⟩ s4

/-! ## Writing to the connection -/

/-- The lines the session loop prints with `fmt.Println`. -/
inductive Line where
  /-- The line "Connection closed by client". -/
  | connectionClosedByClient
  /-- The line "readFrame err:" followed by the error. -/
  | readFrameErr (err : GoError)
  /-- The line "Text:" followed by the payload. -/
  | text (p : List Byte)
  /-- The line "Close:" followed by the payload. -/
  | close (p : List Byte)
  /-- The line "Binary: written to file". -/
  | binaryWritten
  /-- The line "Unsupported opcode:" followed by the opcode. -/
  | unsupportedOpcode (o : Opcode)
  /-- The line "Continuation frames not supported". -/
  | continuationNotSupported
  deriving DecidableEq, Repr

/-- What the session does to the outside world, in order. -/
inductive Event where
  /-- A call of `readFrame` on the connection. -/
  | read
  /-- A call `conn.Write(buf)` and the error it returned. -/
  | write (buf : List Byte) (err : Option GoError)
  /-- A line printed with `fmt.Println`. -/
  | println (line : Line)
  /-- The call `os.Create("output.bin")`. -/
  | create
  /-- The call `conn.Close()`. -/
  | close
  deriving DecidableEq, Repr

/-- A connection: the bytes the peer has still to deliver, the results of the
coming `conn.Write` calls (`none` for success, and success once the list is
used up), and what has happened so far. -/
structure Conn where
  input : List Byte
  writeResults : List (Option GoError)
  trace : List Event
  deriving DecidableEq, Repr

/-- Go's `conn.Write(buf)`. -/
def Conn.write (c : Conn) (buf : List Byte) : Option GoError × Conn :=
  match c.writeResults with
  | [] => (none, { c with trace := c.trace ++ [.write buf none] })
  | r :: rs => (r, { c with writeResults := rs, trace := c.trace ++ [.write buf r] })

/-- The header `sendFrame` builds for an opcode and a payload length. -/
def frameHeader (opcode : Opcode) (payloadLength : Int) : List Byte :=
  let byte1 := bor (byte 0x80) (byte opcode)
  let byte2 := byte 0
  if payloadLength < 126 then
    [byte1, bor byte2 (byte payloadLength)]
  else if payloadLength < 0xFFFF + 1 then
    [byte1, 126, byte (shr payloadLength 8), byte payloadLength]
  else
    (List.range 8).foldl
      (fun header i => header ++ [byte (shr payloadLength (56 - i * 8))])
      [byte1, 127]

/-- The length field of the wire layout for an unmasked payload of n bytes:
n itself below 126, the byte 126 and the two big-endian bytes of n up to 65535,
and the byte 127 and the eight big-endian bytes of n above. -/
def lengthField (n : Nat) : List Byte :=
  if n < 126 then [⟨n % 256, Nat.mod_lt _ (by decide)⟩]
  else if n ≤ 65535 then
    [126, ⟨n / 256 % 256, Nat.mod_lt _ (by decide)⟩, ⟨n % 256, Nat.mod_lt _ (by decide)⟩]
  else
    [127, ⟨n / 2 ^ 56 % 256, Nat.mod_lt _ (by decide)⟩, ⟨n / 2 ^ 48 % 256, Nat.mod_lt _ (by decide)⟩,
      ⟨n / 2 ^ 40 % 256, Nat.mod_lt _ (by decide)⟩, ⟨n / 2 ^ 32 % 256, Nat.mod_lt _ (by decide)⟩,
      ⟨n / 2 ^ 24 % 256, Nat.mod_lt _ (by decide)⟩, ⟨n / 2 ^ 16 % 256, Nat.mod_lt _ (by decide)⟩,
      ⟨n / 2 ^ 8 % 256, Nat.mod_lt _ (by decide)⟩, ⟨n % 256, Nat.mod_lt _ (by decide)⟩]

/-- Source: `sendFrame`. -/
def sendFrame (c : Conn) (opcode : Opcode) (payload : List Byte) : Option GoError × Conn :=
  let payloadLength : Int := payload.length
  let header := frameHeader opcode payloadLength
  match c.write header with
  | (some err, c1) => (some err, c1)
  | (none, c1) =>
    if payloadLength > 0 then
      match c1.write payload with
      | (some err, c2) => (some err, c2)
      | (none, c2) => (none, c2)
    else (none, c1)

/-- The bytes the connection has accepted: the buffers of the writes that
succeeded, in order. -/
def wire : List Event → List Byte
  | [] => []
  | .write buf none :: es => buf ++ wire es
  | _ :: es => wire es

/-- The masking a client applies to a payload: byte i is XORed with byte
i mod 4 of the key. -/
def applyMask (key payload : List Byte) : List Byte :=
  payload.mapIdx (fun i b => bxor b (key.getD (i % 4) 0))

/-- A final frame with MASK = 1 in the wire layout, as a client sends it: the
header of the unmasked frame with the mask bit set in its second byte, the
extended length, the key, and the masked payload. -/
def maskedFrame (opcode : Opcode) (key payload : List Byte) : List Byte :=
  match frameHeader opcode payload.length with
  | b1 :: b2 :: ext => b1 :: bor b2 0x80 :: ext ++ key ++ applyMask key payload
  | _ => []

/-! ## The session loop -/

/-- Appends an event to the trace of the connection. -/
def Conn.emit (c : Conn) (e : Event) : Conn := { c with trace := c.trace ++ [e] }

/-- How `handleWebsocketConnection` ends. The loop of the model is driven by a
counter; `outOfFuel` is the outcome of a counter that was too small. -/
inductive Exit where
  | returned
  | panicked
  | outOfFuel
  deriving DecidableEq, Repr

/-- The `switch o` statement of the loop body, on a frame read without error.
The boolean tells whether the case executed `return`. -/
def dispatch (c : Conn) (o : Opcode) (p : List Byte) : Bool × Conn :=
  if o = Text then (false, c.emit (.println (.text p)))
  else if o = Ping then (false, (sendFrame c Pong p).2)
  else if o = Close then (true, ((sendFrame c Close p).2).emit (.println (.close p)))
  else if o = Binary then (false, (c.emit .create).emit (.println .binaryWritten))
  else (false, c.emit (.println (.unsupportedOpcode o)))

/-- One pass through the body of the `for` loop: `none` when the loop goes on
to another pass, and the way the function is left otherwise. -/
def loopBody (c : Conn) : Option Exit × Conn :=
  match readFrame c.input with
  | .panicked rest => (some .panicked, { c with input := rest, trace := c.trace ++ [.read] })
  | .returned r rest =>
    let c1 : Conn := { c with input := rest, trace := c.trace ++ [.read] }
    match r.err with
    | some err =>
      if isEOF err then (some .returned, c1.emit (.println .connectionClosedByClient))
      else (some .returned, c1.emit (.println (.readFrameErr err)))
    | none =>
      match dispatch c1 r.opcode (r.payload.getD []) with
      | (true, c2) => (some .returned, c2)
      | (false, c2) =>
        if !r.fin then (some .returned, c2.emit (.println .continuationNotSupported))
        else (none, c2)

/-- The `for` loop, for at most the given number of passes. -/
def sessionLoop : Nat → Conn → Exit × Conn
  | 0, c => (.outOfFuel, c)
  | fuel + 1, c =>
    match loopBody c with
    | (some e, c1) => (e, c1)
    | (none, c1) => sessionLoop fuel c1

/-- Source: `handleWebsocketConnection`. The deferred `conn.Close()` runs when
the function is left, by `break`, by `return` or by a panic. Every pass that
goes on has consumed at least the two header bytes, so one pass more than
there are bytes on the connection is enough. -/
def handleWebsocketConnection (c : Conn) : Exit × Conn :=
  match sessionLoop (c.input.length + 1) c with
  | (e, c1) => (e, c1.emit .close)

/-- The contents of `output.bin` after the events, if one of them created the
file: `os.Create` leaves the file empty, and nothing the session does writes
to it. -/
def outputFile (trace : List Event) : Option (List Byte) :=
  if Event.create ∈ trace then some [] else none

/-! ## The handshake -/

/-- Go's `byte(n)` for a non-negative n. -/
def byteOfNat (n : Nat) : Byte := ⟨n % 256, Nat.mod_lt _ (by decide)⟩

/-- A Go string is a sequence of bytes. -/
abbrev GoString := List Byte

/-- The bytes of a string literal of the source (all of them are ASCII). -/
def str (s : String) : GoString := s.data.map (fun ch => byteOfNat ch.toNat)

/-- Go's `strings.ToLower`, on ASCII letters. The only runes outside ASCII that
Go lowers to an ASCII letter give k and i, so the test for "upgrade" in the
lowered string is the one Go makes. -/
def toLower (s : GoString) : GoString :=
  s.map (fun b => if 65 ≤ b.val ∧ b.val ≤ 90 then byteOfNat (b.val + 32) else b)

/-- The lower case of an ASCII letter; another byte is left as it is. -/
def lowerByte (b : Byte) : Byte :=
  if 65 ≤ b.val ∧ b.val ≤ 90 then byteOfNat (b.val + 32) else b

/-- Whether s starts with the bytes of t. -/
def startsWith : GoString → GoString → Bool
  | _, [] => true
  | [], _ :: _ => false
  | a :: s, b :: t => a = b && startsWith s t

/-- Go's `strings.Contains(s, substr)`. -/
def contains : GoString → GoString → Bool
  | [], substr => startsWith [] substr
  | a :: s, substr => startsWith (a :: s) substr || contains s substr

/-- Go's `strings.EqualFold(s, t)` for an ASCII t, as at its one call in the
source: the runes of s are compared with the bytes of t under simple case
folding. Two ASCII bytes match when they are the same letter in either case.
The only runes outside ASCII that fold to an ASCII letter are U+212A (the bytes
E2 84 AA), which matches k, and U+017F (the bytes C5 BF), which matches s. -/
def equalFold : GoString → GoString → Bool
  | s, [] => s.isEmpty
  | [], _ :: _ => false
  | a :: s, c :: t =>
    if lowerByte a = lowerByte c then equalFold s t
    else if a.val = 0xE2 ∧ s.take 2 = [0x84, 0xAA] ∧ lowerByte c = 107 then
      equalFold (s.drop 2) t
    else if a.val = 0xC5 ∧ s.take 1 = [0xBF] ∧ lowerByte c = 115 then
      equalFold (s.drop 1) t
    else false

/-- Rotation to the left of a 32-bit word. -/
def rotl32 (x k : Nat) : Nat := ((x <<< k) ||| (x >>> (32 - k))) % 2 ^ 32

/-- The k low bytes of n, most significant first. -/
def beBytes : Nat → Nat → List Byte
  | 0, _ => []
  | k + 1, n => byteOfNat (n >>> (8 * k)) :: beBytes k n

/-- The padding of SHA-1: a one bit, zero bits up to 56 bytes modulo 64, and the
length of the message in bits as 8 bytes. -/
def sha1Pad (msg : List Byte) : List Byte :=
  msg ++ [0x80] ++ List.replicate ((119 - msg.length % 64) % 64) 0 ++ beBytes 8 (8 * msg.length)

/-- The number whose big-endian bytes are given. -/
def beWord (bs : List Byte) : Nat := bs.foldl (fun acc b => acc * 256 + b.val) 0

/-- The first k 32-bit words of a block. -/
def words : Nat → List Byte → List Nat
  | 0, _ => []
  | k + 1, bs => beWord (bs.take 4) :: words k (bs.drop 4)

/-- The message schedule of SHA-1, extended by k words. -/
def schedule : Nat → List Nat → List Nat
  | 0, w => w
  | k + 1, w =>
    let i := w.length
    schedule k (w ++ [rotl32
      (w.getD (i - 3) 0 ^^^ w.getD (i - 8) 0 ^^^ w.getD (i - 14) 0 ^^^ w.getD (i - 16) 0) 1])

/-- The five working words of SHA-1. -/
structure Sha1State where
  a : Nat
  b : Nat
  c : Nat
  d : Nat
  e : Nat
  deriving DecidableEq, Repr

/-- The complement of a 32-bit word. -/
def not32 (x : Nat) : Nat := 2 ^ 32 - 1 - x

/-- Round i of SHA-1 with the schedule word w. -/
def sha1Round (i : Nat) (s : Sha1State) (w : Nat) : Sha1State :=
  let f := if i < 20 then (s.b &&& s.c) ||| (not32 s.b &&& s.d)
    else if i < 40 then s.b ^^^ s.c ^^^ s.d
    else if i < 60 then (s.b &&& s.c) ||| (s.b &&& s.d) ||| (s.c &&& s.d)
    else s.b ^^^ s.c ^^^ s.d
  let k := if i < 20 then 0x5A827999 else if i < 40 then 0x6ED9EBA1
    else if i < 60 then 0x8F1BBCDC else 0xCA62C1D6
  ⟨(rotl32 s.a 5 + f + s.e + k + w) % 2 ^ 32, s.a, rotl32 s.b 30, s.c, s.d⟩

/-- The rounds of SHA-1 over a schedule, from round i on. -/
def sha1Rounds : Nat → List Nat → Sha1State → Sha1State
  | _, [], s => s
  | i, w :: ws, s => sha1Rounds (i + 1) ws (sha1Round i s w)

/-- The compression of one 64-byte block. -/
def sha1Block (h : Sha1State) (bs : List Byte) : Sha1State :=
  let s := sha1Rounds 0 (schedule 64 (words 16 bs)) h
  ⟨(h.a + s.a) % 2 ^ 32, (h.b + s.b) % 2 ^ 32, (h.c + s.c) % 2 ^ 32, (h.d + s.d) % 2 ^ 32,
    (h.e + s.e) % 2 ^ 32⟩

/-- The compression of k successive blocks. -/
def sha1Blocks : Nat → Sha1State → List Byte → Sha1State
  | 0, h, _ => h
  | k + 1, h, bs => sha1Blocks k (sha1Block h (bs.take 64)) (bs.drop 64)

/-- Go's `crypto.SHA1`: `h.Write(msg)` on a new hash followed by `h.Sum(nil)`,
the SHA-1 digest of FIPS 180-4. -/
def sha1 (msg : List Byte) : List Byte :=
  let p := sha1Pad msg
  let h := sha1Blocks (p.length / 64)
    ⟨0x67452301, 0xEFCDAB89, 0x98BADCFE, 0x10325476, 0xC3D2E1F0⟩ p
  beBytes 4 h.a ++ beBytes 4 h.b ++ beBytes 4 h.c ++ beBytes 4 h.d ++ beBytes 4 h.e

/-- The alphabet of the standard base64 encoding. -/
def base64Alphabet : List Char :=
  "ABCDEFGHIJKLMNOPQRSTUVWXYZabcdefghijklmnopqrstuvwxyz0123456789+/".data

/-- The base64 character of a 6-bit value. -/
def base64Char (n : Nat) : Byte := byteOfNat ((base64Alphabet.getD (n % 64) 'A').toNat)

/-- Go's `base64.StdEncoding.EncodeToString`: RFC 4648 with padding. -/
def base64Std : List Byte → GoString
  | [] => []
  | [a] => [base64Char (a.val >>> 2), base64Char ((a.val &&& 3) <<< 4), 61, 61]
  | [a, b] =>
    [base64Char (a.val >>> 2), base64Char (((a.val &&& 3) <<< 4) ||| (b.val >>> 4)),
      base64Char ((b.val &&& 15) <<< 2), 61]
  | a :: b :: c :: rest =>
    base64Char (a.val >>> 2) :: base64Char (((a.val &&& 3) <<< 4) ||| (b.val >>> 4)) ::
      base64Char (((b.val &&& 15) <<< 2) ||| (c.val >>> 6)) :: base64Char (c.val &&& 63) ::
      base64Std rest

/-- The headers of the request that `websocketHandler` looks at, each as
`r.Header.Get` returns it: the empty string when the header is missing. -/
structure Request where
  connection : GoString
  upgrade : GoString
  secWebSocketKey : GoString
  deriving DecidableEq, Repr

/-- What `websocketHandler` does, in order. -/
inductive HttpEvent where
  /-- A call `http.Error(w, msg, code)`. -/
  | httpError (msg : String) (code : Nat)
  /-- A call `w.Header().Set(key, value)`. -/
  | setHeader (key : String) (value : GoString)
  /-- A call `w.WriteHeader(code)`. -/
  | writeHeader (code : Nat)
  /-- A line printed with `fmt.Println`. -/
  | println (line : String)
  /-- The call `w.(http.Hijacker).Hijack()` and whether it succeeded. -/
  | hijack (ok : Bool)
  /-- The statement `go handleWebsocketConnection(conn)`. -/
  | goHandleWebsocketConnection
  deriving DecidableEq, Repr

/-- The accept key computed in `websocketHandler`:
`base64.StdEncoding.EncodeToString` of the SHA-1 sum of the key followed by
`magicString`. -/
def acceptedKey (key : GoString) : GoString :=
  let magicString := str "258EAFA5-E914-47DA-95CA-C5AB0DC85B11"
  base64Std (sha1 (key ++ magicString))

/-- Source: `websocketHandler`. The second argument tells whether `Hijack`
succeeds. The `Write` of a hash never returns an error, so the branch on its
error is not taken. -/
def websocketHandler (r : Request) (hijackOk : Bool) : List HttpEvent :=
  if !contains (toLower r.connection) (str "upgrade") ||
      !equalFold r.upgrade (str "websocket") then
    [.httpError "Connection and Upgrade headers required" 400]
  else
    (if r.secWebSocketKey = [] then
      [HttpEvent.httpError "Missing Sec-WebSocket-Key header key" 400] else []) ++
    [.setHeader "Upgrade" (str "websocket"),
      .setHeader "Connection" (str "Upgrade"),
      .setHeader "Sec-WebSocket-Accept" (acceptedKey r.secWebSocketKey),
      .writeHeader 101,
      .println "Handshake successful!",
      .println "Reading frames..."] ++
    (if hijackOk then [.hijack true, .goHandleWebsocketConnection]
      else [.hijack false, .httpError "Failed to hijack connection" 500])

/-! ## Auxiliary lemmas -/

set_option maxRecDepth 8000

theorem range_eight : List.range 8 = [0, 1, 2, 3, 4, 5, 6, 7] := by decide

theorem frameHeader_small (opcode : Opcode) (n : Int) (h : n < 126) :
    frameHeader opcode n = [bor (byte 0x80) (byte opcode), bor (byte 0) (byte n)] := by
  unfold frameHeader
  rw [if_pos h]

theorem frameHeader_medium (opcode : Opcode) (n : Int) (h1 : 126 ≤ n) (h2 : n ≤ 65535) :
    frameHeader opcode n = [bor (byte 0x80) (byte opcode), 126, byte (shr n 8), byte n] := by
  unfold frameHeader
  rw [if_neg (by omega), if_pos (by omega)]

theorem frameHeader_large (opcode : Opcode) (n : Int) (h : 65536 ≤ n) :
    frameHeader opcode n = [bor (byte 0x80) (byte opcode), 127, byte (shr n 56),
      byte (shr n 48), byte (shr n 40), byte (shr n 32), byte (shr n 24), byte (shr n 16),
      byte (shr n 8), byte (shr n 0)] := by
  unfold frameHeader
  rw [if_neg (by omega), if_neg (by omega), range_eight]
  rfl

theorem frameHeader_65536 (opcode : Opcode) :
    frameHeader opcode 65536 = [bor (byte 0x80) (byte opcode), 127, 0, 0, 0, 0, 0, 1, 0, 0] := by
  rw [frameHeader_large opcode 65536 (by decide)]
  simp only [List.cons.injEq, true_and, and_true]
  decide

/-- The bytes a connection that accepts every write receives from `sendFrame`. -/
theorem wire_sendFrame (opcode : Opcode) (payload : List Byte) :
    wire (sendFrame ⟨[], [], []⟩ opcode payload).2.trace
      = frameHeader opcode payload.length ++ payload := by
  cases payload with
  | nil => simp [sendFrame, Conn.write, wire]
  | cons b t =>
    have h2 : (0 : Int) < ((b :: t).length : Int) := by simp
    simp only [sendFrame, Conn.write, h2, wire]
    simp [wire]

theorem readFull_append (a b : List Byte) : readFull (a ++ b) a.length = (.ok a, b) := by
  simp [readFull]

theorem readFull_short (s : List Byte) (n : Nat) (h1 : s.length < n) (h2 : 0 < s.length) :
    readFull s n = (.error .ErrUnexpectedEOF, []) := by
  unfold readFull
  rw [if_neg (by omega), if_neg (by omega)]

theorem readFull_nil (n : Nat) (h : 0 < n) : readFull [] n = (.error .EOF, []) := by
  unfold readFull
  rw [if_neg (by simp; omega), if_pos (by simp)]

/-- The 64-bit length 65536 on the wire is resolved to 65663. -/
theorem readPayloadLength_65536 (s : List Byte) :
    readPayloadLength ([0, 0, 0, 0, 0, 1, 0, 0] ++ s) 127 = (.ok 65663, s) := by
  unfold readPayloadLength
  have e : readFull ([0, 0, 0, 0, 0, 1, 0, 0] ++ s) 8 = (.ok [0, 0, 0, 0, 0, 1, 0, 0], s) :=
    readFull_append [0, 0, 0, 0, 0, 1, 0, 0] s
  rw [if_neg (by decide), if_neg (by decide), e]
  simp only [range_eight, Prod.mk.injEq, Res.ok.injEq, and_true]
  decide

/-- An unmasked frame that announces 65536 bytes in the 64-bit form and carries
65536 bytes is not read to its end. -/
theorem readFrame_unmasked_65536 (b1 : Byte) (payload : List Byte)
    (h : payload.length = 65536) :
    readFrame (b1 :: 127 :: [0, 0, 0, 0, 0, 1, 0, 0] ++ payload)
      = .returned (failed .ErrUnexpectedEOF) [] := by
  have e1 : readFull (b1 :: 127 :: [0, 0, 0, 0, 0, 1, 0, 0] ++ payload) 2
      = (.ok [b1, 127], [0, 0, 0, 0, 0, 1, 0, 0] ++ payload) :=
    readFull_append [b1, 127] ([0, 0, 0, 0, 0, 1, 0, 0] ++ payload)
  have e3 : int (band 127 0x7F) = 127 := by decide
  have e4 : readFull payload (65663 : Int).toNat = (.error .ErrUnexpectedEOF, []) :=
    readFull_short payload _ (by rw [h]; decide) (by rw [h]; decide)
  have e5 : (band 127 0x80 != 0) = false := by decide
  have h6 : ¬ ((65663 : Int) > maxPayload) := by norm_num [maxPayload]
  have h7 : ¬ ((65663 : Int) < 0) := by norm_num
  unfold readFrame
  rw [e1]
  simp only [List.getD_cons_zero, List.getD_cons_succ, e3, readPayloadLength_65536, e5,
    Bool.false_eq_true, if_false, if_neg h6, if_neg h7, e4]

theorem length_applyMask (key payload : List Byte) :
    (applyMask key payload).length = payload.length := by
  simp [applyMask]

/-- A masked frame that announces 65536 bytes in the 64-bit form and carries
65536 bytes is not read to its end. -/
theorem readFrame_masked_65536 (b1 : Byte) (key payload : List Byte) (hk : key.length = 4)
    (h : payload.length = 65536) :
    readFrame (b1 :: 255 :: [0, 0, 0, 0, 0, 1, 0, 0] ++ key ++ payload)
      = .returned (failed .ErrUnexpectedEOF) [] := by
  have e1 : readFull (b1 :: 255 :: [0, 0, 0, 0, 0, 1, 0, 0] ++ key ++ payload) 2
      = (.ok [b1, 255], [0, 0, 0, 0, 0, 1, 0, 0] ++ (key ++ payload)) := by
    have := readFull_append [b1, 255] ([0, 0, 0, 0, 0, 1, 0, 0] ++ (key ++ payload))
    simpa using this
  have e2 : readFull (key ++ payload) 4 = (.ok key, payload) := by
    have := readFull_append key payload
    rwa [hk] at this
  have e3 : int (band 255 0x7F) = 127 := by decide
  have e4 : readFull payload (65663 : Int).toNat = (.error .ErrUnexpectedEOF, []) :=
    readFull_short payload _ (by rw [h]; decide) (by rw [h]; decide)
  have e5 : (band 255 0x80 != 0) = true := by decide
  have h6 : ¬ ((65663 : Int) > maxPayload) := by norm_num [maxPayload]
  have h7 : ¬ ((65663 : Int) < 0) := by norm_num
  unfold readFrame
  rw [e1]
  simp only [List.getD_cons_zero, List.getD_cons_succ, e3, readPayloadLength_65536, e5,
    if_true, e2, if_neg h6, if_neg h7, e4]

theorem maskedFrame_65536 (opcode : Opcode) (key payload : List Byte)
    (h : payload.length = 65536) :
    maskedFrame opcode key payload
      = bor (byte 0x80) (byte opcode) :: 255 :: [0, 0, 0, 0, 0, 1, 0, 0] ++ key
          ++ applyMask key payload := by
  unfold maskedFrame
  have h1 : ((payload.length : Nat) : Int) = 65536 := by rw [h]; norm_num
  rw [h1, frameHeader_65536]
  have hb : bor (127 : Byte) 0x80 = 255 := by decide
  simp only [hb]

theorem byte_natCast (m : Nat) : byte (m : Int) = byteOfNat m := by
  apply Fin.ext
  simp only [byte, byteOfNat]
  omega

theorem byte_shr (n k : Nat) : byte (shr (n : Int) k) = byteOfNat (n >>> k) := by
  have h : shr (n : Int) k = ((n / 2 ^ k : Nat) : Int) := by
    simp [shr]
  rw [h, byte_natCast, Nat.shiftRight_eq_div_pow]

theorem bor_zero_left (b : Byte) : bor (byte 0) b = b := by
  apply Fin.ext
  simp [bor, byte]

theorem firstByte (opcode : Opcode) (h0 : 0 ≤ opcode) (h1 : opcode ≤ 15) :
    bor (byte 0x80) (byte opcode) = byteOfNat (0x80 ||| opcode.toNat) := by
  obtain ⟨k, rfl⟩ := Int.eq_ofNat_of_zero_le h0
  have hk : k ≤ 15 := by exact_mod_cast h1
  interval_cases k <;> decide

theorem sendFrame_trace (c : Conn) (opcode : Opcode) (payload : List Byte) :
    ∃ r rest, (sendFrame c opcode payload).2.trace
      = c.trace ++ Event.write (frameHeader opcode payload.length) r :: rest := by
  unfold sendFrame
  simp only [Conn.write]
  rcases c with ⟨inp, wr, tr⟩
  rcases wr with _ | ⟨r1, wr⟩
  · by_cases hp : (payload.length : Int) > 0
    · exact ⟨none, [.write payload none], by simp [hp]⟩
    · exact ⟨none, [], by simp [hp]⟩
  · cases r1 with
    | some e => exact ⟨some e, [], by simp⟩
    | none =>
      by_cases hp : (payload.length : Int) > 0
      · rcases wr with _ | ⟨r2, wr⟩
        · exact ⟨none, [.write payload none], by simp [hp]⟩
        · cases r2 with
          | some e => exact ⟨none, [.write payload (some e)], by simp [hp]⟩
          | none => exact ⟨none, [.write payload none], by simp [hp]⟩
      · exact ⟨none, [], by simp [hp]⟩

theorem beBytes_eight (n : Nat) :
    beBytes 8 n = [byteOfNat (n >>> 56), byteOfNat (n >>> 48), byteOfNat (n >>> 40),
      byteOfNat (n >>> 32), byteOfNat (n >>> 24), byteOfNat (n >>> 16), byteOfNat (n >>> 8),
      byteOfNat (n >>> 0)] := by
  simp [beBytes]

theorem readFull_ok (s : List Byte) (n : Nat) (h : n ≤ s.length) :
    readFull s n = (.ok (s.take n), s.drop n) := by
  unfold readFull
  rw [if_pos h]

theorem readFull_zero (s : List Byte) : readFull s 0 = (.ok [], s) := by
  simp [readFull]

theorem readPayloadLength_eq (s : List Byte) (length : Int) :
    readPayloadLength s length =
      match readFull s (extLen length) with
      | (.error err, s1) => (.error err, s1)
      | (.ok payloadLength, s1) => (.ok (resolveLength length payloadLength), s1) := by
  unfold readPayloadLength extLen resolveLength
  by_cases h1 : length < 126
  · simp only [if_pos h1, readFull_zero]
  · simp only [if_neg h1]
    by_cases h2 : length = 126
    · simp only [if_pos h2]
    · simp only [if_neg h2]

theorem readFrame_cons_cons (b1 b2 : Byte) (s : List Byte) :
    readFrame (b1 :: b2 :: s) =
      match readPayloadLength s (int (band b2 0x7F)) with
      | (.error err, s2) => .returned (failed err) s2
      | (.ok length, s2) =>
        match (if band b2 0x80 != 0 then readFull s2 4 else (.ok [0, 0, 0, 0], s2)) with
        | (.error err, s3) => .returned (failed err) s3
        | (.ok maskKey, s3) =>
          if length > maxPayload then
            .returned (failed (.payloadTooLarge length maxPayload)) s3
          else if length < 0 then .panicked s3
          else
            match readFull s3 length.toNat with
            | (.error err, s4) => .returned (failed err) s4
            | (.ok payload, s4) =>
              .returned ⟨band b1 0x80 != 0, int (band b1 0x0F),
                some (if band b2 0x80 != 0 then unmask maskKey payload else payload), none⟩ s4 := by
  unfold readFrame
  rw [readFull_ok _ 2 (by simp)]
  rfl

theorem readFrame_nil : readFrame [] = .returned (failed .EOF) [] := by decide

theorem readFrame_singleton (b : Byte) :
    readFrame [b] = .returned (failed .ErrUnexpectedEOF) [] := by
  unfold readFrame
  rw [readFull_short _ 2 (by simp) (by simp)]

theorem readFull_eq (s : List Byte) (n : Nat) :
    readFull s n = if n ≤ s.length then (.ok (s.take n), s.drop n)
      else (.error (if s.length = 0 then .EOF else .ErrUnexpectedEOF), []) := by
  unfold readFull
  split
  · rfl
  · split <;> rfl

/-- The outcome of `readFrame` on a stream with both header bytes, by the
number of bytes that follow them. -/
theorem readFrame_cases (b1 b2 : Byte) (s : List Byte) :
    readFrame (b1 :: b2 :: s) =
      if s.length < extLen (int (band b2 0x7F)) then
        .returned (failed (if s.length = 0 then .EOF else .ErrUnexpectedEOF)) []
      else if s.length < extLen (int (band b2 0x7F)) + maskLen b2 then
        .returned (failed (if s.length = extLen (int (band b2 0x7F)) then .EOF
          else .ErrUnexpectedEOF)) []
      else if resolveLength (int (band b2 0x7F)) (s.take (extLen (int (band b2 0x7F))))
          > maxPayload then
        .returned (failed (.payloadTooLarge
          (resolveLength (int (band b2 0x7F)) (s.take (extLen (int (band b2 0x7F)))))
          maxPayload)) (s.drop (extLen (int (band b2 0x7F)) + maskLen b2))
      else if resolveLength (int (band b2 0x7F)) (s.take (extLen (int (band b2 0x7F)))) < 0 then
        .panicked (s.drop (extLen (int (band b2 0x7F)) + maskLen b2))
      else if s.length < extLen (int (band b2 0x7F)) + maskLen b2
          + (resolveLength (int (band b2 0x7F)) (s.take (extLen (int (band b2 0x7F))))).toNat then
        .returned (failed (if s.length = extLen (int (band b2 0x7F)) + maskLen b2 then .EOF
          else .ErrUnexpectedEOF)) []
      else
        .returned ⟨band b1 0x80 != 0, int (band b1 0x0F),
          some (if band b2 0x80 != 0 then
            unmask ((s.drop (extLen (int (band b2 0x7F)))).take 4)
              ((s.drop (extLen (int (band b2 0x7F)) + maskLen b2)).take
                (resolveLength (int (band b2 0x7F))
                  (s.take (extLen (int (band b2 0x7F))))).toNat)
          else (s.drop (extLen (int (band b2 0x7F)) + maskLen b2)).take
            (resolveLength (int (band b2 0x7F)) (s.take (extLen (int (band b2 0x7F))))).toNat),
          none⟩
          (s.drop (extLen (int (band b2 0x7F)) + maskLen b2
            + (resolveLength (int (band b2 0x7F))
                (s.take (extLen (int (band b2 0x7F))))).toNat)) := by
  rw [readFrame_cons_cons, readPayloadLength_eq]
  generalize extLen (int (band b2 0x7F)) = e
  generalize hL : int (band b2 0x7F) = L
  rw [readFull_eq s e]
  by_cases h1 : s.length < e
  · rw [if_neg (by omega), if_pos h1]
  · rw [if_pos (by omega), if_neg h1]
    simp only []
    generalize resolveLength L (s.take e) = len
    unfold maskLen
    by_cases hm : (band b2 0x80 != 0) = true
    · simp only [hm, if_true]
      rw [readFull_eq (s.drop e) 4]
      simp only [List.length_drop]
      by_cases h2 : s.length < e + 4
      · rw [if_neg (by omega), if_pos h2]
        simp only []
        congr 2
        by_cases h3 : s.length = e
        · rw [if_pos (by omega), if_pos h3]
        · rw [if_neg (by omega), if_neg h3]
      · rw [if_pos (by omega), if_neg h2]
        simp only []
        by_cases h4 : len > maxPayload
        · simp only [if_pos h4, List.drop_drop, Nat.add_comm 4 e]
        · simp only [if_neg h4]
          by_cases h5 : len < 0
          · simp only [if_pos h5, List.drop_drop, Nat.add_comm 4 e]
          · simp only [if_neg h5]
            rw [readFull_eq]
            simp only [List.length_drop, List.drop_drop]
            by_cases h6 : s.length < e + 4 + len.toNat
            · rw [if_neg (by omega), if_pos h6]
              simp only []
              congr 2
              by_cases h7 : s.length = e + 4
              · rw [if_pos (by omega), if_pos h7]
              · rw [if_neg (by omega), if_neg h7]
            · rw [if_pos (by omega), if_neg h6]
    · simp only [hm, Bool.false_eq_true, if_false, Nat.add_zero]
      rw [if_neg h1]
      by_cases h4 : len > maxPayload
      · simp only [if_pos h4]
      · simp only [if_neg h4]
        by_cases h5 : len < 0
        · simp only [if_pos h5]
        · simp only [if_neg h5]
          rw [readFull_eq]
          simp only [List.length_drop, List.drop_drop]
          by_cases h6 : s.length < e + len.toNat
          · rw [if_neg (by omega), if_pos h6]
            simp only []
            congr 2
            by_cases h7 : s.length = e
            · rw [if_pos (by omega), if_pos h7]
            · rw [if_neg (by omega), if_neg h7]
          · rw [if_pos (by omega), if_neg h6]

theorem handle_of_readFrame_error (c : Conn) (err : GoError) (rest : List Byte)
    (h : readFrame c.input = .returned (failed err) rest) :
    handleWebsocketConnection c = (.returned,
      ⟨rest, c.writeResults, c.trace ++ [.read,
        .println (if isEOF err then .connectionClosedByClient else .readFrameErr err),
        .close]⟩) := by
  unfold handleWebsocketConnection sessionLoop loopBody
  rw [h]
  cases hE : isEOF err <;> simp [failed, hE, Conn.emit]

/-- What a successful `readFrame` tells about the stream. -/
theorem readFrame_ok_inv (b1 b2 : Byte) (s : List Byte) (r : FrameResult) (rest : List Byte)
    (hread : readFrame (b1 :: b2 :: s) = .returned r rest) (hok : r.err = none) :
    ¬ resolveLength (int (band b2 0x7F)) (s.take (extLen (int (band b2 0x7F)))) > maxPayload ∧
    ¬ resolveLength (int (band b2 0x7F)) (s.take (extLen (int (band b2 0x7F)))) < 0 ∧
    extLen (int (band b2 0x7F)) + maskLen b2
      + (resolveLength (int (band b2 0x7F)) (s.take (extLen (int (band b2 0x7F))))).toNat
      ≤ s.length ∧
    rest = s.drop (extLen (int (band b2 0x7F)) + maskLen b2
      + (resolveLength (int (band b2 0x7F)) (s.take (extLen (int (band b2 0x7F))))).toNat) ∧
    r = ⟨band b1 0x80 != 0, int (band b1 0x0F),
      some (if band b2 0x80 != 0 then
        unmask ((s.drop (extLen (int (band b2 0x7F)))).take 4)
          ((s.drop (extLen (int (band b2 0x7F)) + maskLen b2)).take
            (resolveLength (int (band b2 0x7F)) (s.take (extLen (int (band b2 0x7F))))).toNat)
      else (s.drop (extLen (int (band b2 0x7F)) + maskLen b2)).take
        (resolveLength (int (band b2 0x7F)) (s.take (extLen (int (band b2 0x7F))))).toNat),
      none⟩ := by
  rw [readFrame_cases] at hread
  generalize extLen (int (band b2 0x7F)) = e at hread ⊢
  generalize maskLen b2 = m at hread ⊢
  generalize resolveLength (int (band b2 0x7F)) (s.take e) = len at hread ⊢
  by_cases c1 : s.length < e
  · rw [if_pos c1] at hread
    injection hread with h1 h2
    rw [← h1] at hok
    simp [failed] at hok
  rw [if_neg c1] at hread
  by_cases c2 : s.length < e + m
  · rw [if_pos c2] at hread
    injection hread with h1 h2
    rw [← h1] at hok
    simp [failed] at hok
  rw [if_neg c2] at hread
  by_cases c3 : len > maxPayload
  · rw [if_pos c3] at hread
    injection hread with h1 h2
    rw [← h1] at hok
    simp [failed] at hok
  rw [if_neg c3] at hread
  by_cases c4 : len < 0
  · rw [if_pos c4] at hread
    cases hread
  rw [if_neg c4] at hread
  by_cases c5 : s.length < e + m + len.toNat
  · rw [if_pos c5] at hread
    injection hread with h1 h2
    rw [← h1] at hok
    simp [failed] at hok
  rw [if_neg c5] at hread
  injection hread with h1 h2
  exact ⟨c3, c4, by omega, h2.symm, h1.symm⟩

theorem frameHeader_eq_lengthField (opcode : Opcode) (n : Nat) (h0 : 0 ≤ opcode)
    (h1 : opcode ≤ 15) :
    frameHeader opcode n = byteOfNat (0x80 ||| opcode.toNat) :: lengthField n := by
  unfold lengthField
  by_cases ha : n < 126
  · rw [frameHeader_small _ _ (by omega), firstByte _ h0 h1, bor_zero_left, byte_natCast, if_pos ha]
    rfl
  · rw [if_neg ha]
    by_cases hb : n ≤ 65535
    · rw [frameHeader_medium _ _ (by omega) (by omega), firstByte _ h0 h1, byte_shr, byte_natCast,
        Nat.shiftRight_eq_div_pow, if_pos hb]
      rfl
    · rw [frameHeader_large _ _ (by omega), firstByte _ h0 h1, if_neg hb]
      simp only [byte_shr, Nat.shiftRight_eq_div_pow]
      simp [byteOfNat]

theorem write_ok (c : Conn) (buf : List Byte) (hw : ∀ r ∈ c.writeResults, r = none) :
    c.write buf = (none, ⟨c.input, c.writeResults.tail, c.trace ++ [.write buf none]⟩) := by
  unfold Conn.write
  rcases c with ⟨inp, wr, tr⟩
  cases wr with
  | nil => rfl
  | cons r rs =>
    have : r = none := hw r (by simp)
    subst this
    rfl

theorem sendFrame_ok (c : Conn) (opcode : Opcode) (p : List Byte)
    (hw : ∀ r ∈ c.writeResults, r = none) :
    ∃ wr evs, sendFrame c opcode p = (none, ⟨c.input, wr, c.trace ++ evs⟩) ∧
      (∀ e ∈ evs, ∃ buf, e = Event.write buf none) ∧
      wire evs = frameHeader opcode p.length ++ p := by
  unfold sendFrame
  simp only [write_ok c _ hw]
  by_cases hp : (p.length : Int) > 0
  · rw [if_pos hp]
    have hw2 : ∀ r ∈ c.writeResults.tail, r = none :=
      fun r hr => hw r (List.mem_of_mem_tail hr)
    rw [write_ok _ _ hw2]
    refine ⟨c.writeResults.tail.tail, [.write (frameHeader opcode p.length) none,
      .write p none], by simp, ?_, by simp [wire]⟩
    intro e he
    simp only [List.mem_cons, List.mem_singleton, List.not_mem_nil, or_false] at he
    rcases he with rfl | rfl
    · exact ⟨_, rfl⟩
    · exact ⟨_, rfl⟩
  · rw [if_neg hp]
    have hp0 : p = [] := by
      cases p with
      | nil => rfl
      | cons a t => simp at hp
    subst hp0
    refine ⟨c.writeResults.tail, [.write (frameHeader opcode ([] : List Byte).length) none],
      rfl, ?_, by simp [wire]⟩
    intro e he
    simp only [List.mem_singleton] at he
    exact ⟨_, he⟩

theorem sendFrame_effect (c : Conn) (opcode : Opcode) (p : List Byte) :
    ∃ wr evs, (sendFrame c opcode p).2 = ⟨c.input, wr, c.trace ++ evs⟩ ∧
      ∀ e ∈ evs, ∃ buf err, e = Event.write buf err := by
  unfold sendFrame
  simp only [Conn.write]
  rcases c with ⟨inp, wr, tr⟩
  have one : ∀ (buf : List Byte) (r : Option GoError), ∀ e ∈ [Event.write buf r],
      ∃ buf err, e = Event.write buf err := by
    intro buf r e he
    simp only [List.mem_singleton] at he
    exact ⟨_, _, he⟩
  have two : ∀ (b1 b2 : List Byte) (r1 r2 : Option GoError),
      ∀ e ∈ [Event.write b1 r1, Event.write b2 r2], ∃ buf err, e = Event.write buf err := by
    intro b1 b2 r1 r2 e he
    simp only [List.mem_cons, List.mem_singleton, List.not_mem_nil, or_false] at he
    rcases he with rfl | rfl
    · exact ⟨_, _, rfl⟩
    · exact ⟨_, _, rfl⟩
  rcases wr with _ | ⟨r1, wr⟩
  · by_cases hp : (p.length : Int) > 0
    · exact ⟨[], [.write (frameHeader opcode p.length) none, .write p none], by simp [hp],
        two _ _ _ _⟩
    · exact ⟨[], [.write (frameHeader opcode p.length) none], by simp [hp], one _ _⟩
  · cases r1 with
    | some e =>
      exact ⟨wr, [.write (frameHeader opcode p.length) (some e)], by simp, one _ _⟩
    | none =>
      by_cases hp : (p.length : Int) > 0
      · rcases wr with _ | ⟨r2, wr⟩
        · exact ⟨[], [.write (frameHeader opcode p.length) none, .write p none],
            by simp [hp], two _ _ _ _⟩
        · cases r2 with
          | some e =>
            exact ⟨wr, [.write (frameHeader opcode p.length) none, .write p (some e)],
              by simp [hp], two _ _ _ _⟩
          | none =>
            exact ⟨wr, [.write (frameHeader opcode p.length) none, .write p none],
              by simp [hp], two _ _ _ _⟩
      · exact ⟨wr, [.write (frameHeader opcode p.length) none], by simp [hp], one _ _⟩

theorem dispatch_effect (c : Conn) (o : Opcode) (p : List Byte) :
    ∃ ret wr evs, dispatch c o p = (ret, ⟨c.input, wr, c.trace ++ evs⟩) ∧
      Event.read ∉ evs ∧
      (o ≠ Ping → o ≠ Close → ret = false ∧ ∀ buf err, Event.write buf err ∉ evs) := by
  unfold dispatch
  by_cases h1 : o = Text
  · rw [if_pos h1]
    exact ⟨false, c.writeResults, [.println (.text p)], rfl, by simp, fun _ _ => ⟨rfl, by simp⟩⟩
  rw [if_neg h1]
  by_cases h2 : o = Ping
  · rw [if_pos h2]
    obtain ⟨wr, evs, he, hev⟩ := sendFrame_effect c Pong p
    refine ⟨false, wr, evs, by rw [he], ?_, fun h => absurd h2 h⟩
    intro hmem
    obtain ⟨buf, err, hb⟩ := hev _ hmem
    cases hb
  rw [if_neg h2]
  by_cases h3 : o = Close
  · rw [if_pos h3]
    obtain ⟨wr, evs, he, hev⟩ := sendFrame_effect c Close p
    refine ⟨true, wr, evs ++ [.println (.close p)], ?_, ?_, fun _ h => absurd h3 h⟩
    · rw [he]
      simp [Conn.emit]
    · intro hmem
      simp only [List.mem_append, List.mem_singleton] at hmem
      rcases hmem with hmem | hmem
      · obtain ⟨buf, err, hb⟩ := hev _ hmem
        cases hb
      · cases hmem
  rw [if_neg h3]
  by_cases h4 : o = Binary
  · rw [if_pos h4]
    exact ⟨false, c.writeResults, [.create, .println .binaryWritten], by simp [Conn.emit],
      by simp, fun _ _ => ⟨rfl, by simp⟩⟩
  rw [if_neg h4]
  exact ⟨false, c.writeResults, [.println (.unsupportedOpcode o)], rfl, by simp,
    fun _ _ => ⟨rfl, by simp⟩⟩

theorem loopBody_reads_first (c : Conn) :
    ∃ evs, (loopBody c).2.trace = c.trace ++ Event.read :: evs := by
  unfold loopBody
  cases hr : readFrame c.input with
  | panicked rest => exact ⟨[], by simp⟩
  | returned r rest =>
    simp only []
    cases he : r.err with
    | some err =>
      simp only []
      by_cases hE : isEOF err = true
      · exact ⟨[.println .connectionClosedByClient], by simp [hE, Conn.emit]⟩
      · exact ⟨[.println (.readFrameErr err)], by simp [hE, Conn.emit]⟩
    | none =>
      simp only []
      obtain ⟨ret, wr, evs, hd, _, _⟩ :=
        dispatch_effect ⟨rest, c.writeResults, c.trace ++ [.read]⟩ r.opcode (r.payload.getD [])
      rw [hd]
      cases ret with
      | true => exact ⟨evs, by simp⟩
      | false =>
        cases r.fin with
        | true => exact ⟨evs, by simp⟩
        | false => exact ⟨evs ++ [.println .continuationNotSupported], by simp [Conn.emit]⟩

theorem band_small (n : Nat) (h : n ≤ 125) :
    band (byteOfNat n) 0x7F = byteOfNat n ∧ band (byteOfNat n) 0x80 = 0 ∧
      int (byteOfNat n) = n := by
  interval_cases n <;> decide

/-- An unmasked frame with a payload of at most 125 bytes is read back. -/
theorem readFrame_small (b1 : Byte) (p rest : List Byte) (h : p.length ≤ 125) :
    readFrame (b1 :: byteOfNat p.length :: (p ++ rest))
      = .returned ⟨band b1 0x80 != 0, int (band b1 0x0F), some p, none⟩ rest := by
  obtain ⟨e1, e2, e3⟩ := band_small p.length h
  rw [readFrame_cases]
  have hE : extLen (int (band (byteOfNat p.length) 0x7F)) = 0 := by
    rw [e1, e3]
    unfold extLen
    rw [if_pos (by omega)]
  have hM : maskLen (byteOfNat p.length) = 0 := by
    unfold maskLen
    rw [e2]
    rfl
  have hR : resolveLength (int (band (byteOfNat p.length) 0x7F)) [] = p.length := by
    rw [e1, e3]
    unfold resolveLength
    rw [if_pos (by omega)]
  have hmax : ¬ ((p.length : Int) > maxPayload) := by
    unfold maxPayload
    omega
  simp only [hE, hM, List.take_zero, hR, e2, Nat.add_zero, Nat.zero_add, Int.toNat_ofNat,
    List.drop_zero, List.length_append]
  rw [if_neg (by omega), if_neg (by omega), if_neg hmax, if_neg (by omega), if_neg (by omega)]
  simp

theorem lengthField_unmasked (n : Nat) : band ((lengthField n).getD 0 0) 0x80 = 0 := by
  unfold lengthField
  by_cases ha : n < 126
  · rw [if_pos ha]
    simp only [List.getD_cons_zero]
    interval_cases n <;> decide
  · rw [if_neg ha]
    by_cases hb : n ≤ 65535
    · rw [if_pos hb]
      simp only [List.getD_cons_zero]
      decide
    · rw [if_neg hb]
      simp only [List.getD_cons_zero]
      decide

/-- A pass after which the loop goes on has consumed at least two bytes. -/
theorem loopBody_consumes (c c' : Conn) (h : loopBody c = (none, c')) :
    c'.input.length + 2 ≤ c.input.length := by
  unfold loopBody at h
  cases hr : readFrame c.input with
  | panicked rest =>
    rw [hr] at h
    cases h
  | returned r rest =>
    rw [hr] at h
    simp only [] at h
    cases he : r.err with
    | some err =>
      rw [he] at h
      simp only [] at h
      split at h <;> cases h
    | none =>
      rw [he] at h
      simp only [] at h
      obtain ⟨ret, wr, evs, hd, _, _⟩ :=
        dispatch_effect ⟨rest, c.writeResults, c.trace ++ [.read]⟩ r.opcode (r.payload.getD [])
      rw [hd] at h
      have hin : c'.input = rest := by
        cases ret with
        | true => cases h
        | false =>
          simp only [] at h
          split at h
          · cases h
          · injection h with _ h2
            rw [← h2]
      rw [hin]
      match hc : c.input, hr with
      | [], hr =>
        rw [readFrame_nil] at hr
        injection hr with h1 _
        rw [← h1] at he
        simp [failed] at he
      | [b], hr =>
        rw [readFrame_singleton] at hr
        injection hr with h1 _
        rw [← h1] at he
        simp [failed] at he
      | b1 :: b2 :: s, hr =>
        obtain ⟨_, _, _, hrest, _⟩ := readFrame_ok_inv b1 b2 s r rest hr he
        rw [hrest]
        simp only [List.length_drop, List.length_cons]
        omega

theorem sessionLoop_terminates (fuel : Nat) (c : Conn) (h : c.input.length < fuel) :
    (sessionLoop fuel c).1 ≠ .outOfFuel := by
  induction fuel generalizing c with
  | zero => omega
  | succ n ih =>
    unfold sessionLoop
    cases hl : loopBody c with
    | mk e c1 =>
      cases e with
      | some e =>
        simp only []
        unfold loopBody at hl
        revert hl
        cases readFrame c.input with
        | panicked rest =>
          intro hl
          injection hl with h1 _
          injection h1 with h1
          rw [← h1]
          decide
        | returned r rest =>
          simp only []
          cases r.err with
          | some err =>
            simp only []
            split <;> intro hl <;> injection hl with h1 _ <;> injection h1 with h1 <;>
              rw [← h1] <;> decide
          | none =>
            simp only []
            split
            · intro hl
              injection hl with h1 _
              injection h1 with h1
              rw [← h1]
              decide
            · split
              · intro hl
                injection hl with h1 _
                injection h1 with h1
                rw [← h1]
                decide
              · intro hl
                cases hl
      | none =>
        simp only []
        have := loopBody_consumes c c1 hl
        exact ih c1 (by omega)

/-- The loop of `handleWebsocketConnection` always ends within its counter. -/
theorem handleWebsocketConnection_terminates (c : Conn) :
    (handleWebsocketConnection c).1 ≠ .outOfFuel := by
  unfold handleWebsocketConnection
  exact sessionLoop_terminates _ c (by omega)

/-- The result of `conn.Write` is the first of the coming results. -/
theorem write_eq (c : Conn) (buf : List Byte) :
    c.write buf = (c.writeResults.getD 0 none,
      ⟨c.input, c.writeResults.drop 1,
        c.trace ++ [.write buf (c.writeResults.getD 0 none)]⟩) := by
  unfold Conn.write
  rcases c with ⟨inp, wr, tr⟩
  cases wr with
  | nil => rfl
  | cons r rs => rfl

/-- A `sendFrame` that fails has logged a write with its error. -/
theorem sendFrame_failed (c : Conn) (opcode : Opcode) (p : List Byte) (e : GoError)
    (h : (sendFrame c opcode p).1 = some e) :
    ∃ wr evs, (sendFrame c opcode p).2 = ⟨c.input, wr, c.trace ++ evs⟩ ∧
      Event.read ∉ evs ∧ ∃ buf, Event.write buf (some e) ∈ evs := by
  unfold sendFrame at h ⊢
  simp only [write_eq] at h ⊢
  generalize c.writeResults.getD 0 none = r1 at h ⊢
  cases r1 with
  | some e1 =>
    simp only [Option.some.injEq] at h
    subst h
    exact ⟨_, [.write (frameHeader opcode p.length) (some e1)], rfl, by simp,
      frameHeader opcode p.length, by simp⟩
  | none =>
    simp only [] at h ⊢
    by_cases hp : ((p.length : Nat) : Int) > 0
    · rw [if_pos hp] at h ⊢
      generalize (c.writeResults.drop 1).getD 0 none = r2 at h ⊢
      cases r2 with
      | some e2 =>
        simp only [Option.some.injEq] at h
        subst h
        exact ⟨(c.writeResults.drop 1).drop 1,
          [.write (frameHeader opcode p.length) none, .write p (some e2)],
          by simp, by simp, p, by simp⟩
      | none => cases h
    · rw [if_neg hp] at h
      cases h

theorem length_unmask (key payload : List Byte) :
    (unmask key payload).length = payload.length := by
  simp [unmask]

/-- A `readFrame` that returns an error returns it with `false`, -1 and nil. -/
theorem readFrame_error_shape (f : List Byte) (r : FrameResult) (rest : List Byte)
    (e : GoError) (hread : readFrame f = .returned r rest) (he : r.err = some e) :
    r = failed e := by
  have aux : ∀ (x : GoError) (t : List Byte),
      ReadOutcome.returned (failed x) t = .returned r rest → r = failed e := by
    intro x t h
    injection h with h1 _
    subst h1
    simp only [failed, Option.some.injEq] at he
    rw [he]
  match f, hread with
  | [], hread =>
    rw [readFrame_nil] at hread
    exact aux _ _ hread
  | [b], hread =>
    rw [readFrame_singleton] at hread
    exact aux _ _ hread
  | b1 :: b2 :: s, hread =>
    rw [readFrame_cases] at hread
    generalize extLen (int (band b2 0x7F)) = e' at hread
    generalize maskLen b2 = m at hread
    generalize resolveLength (int (band b2 0x7F)) (s.take e') = len at hread
    by_cases c1 : s.length < e'
    · rw [if_pos c1] at hread
      exact aux _ _ hread
    rw [if_neg c1] at hread
    by_cases c2 : s.length < e' + m
    · rw [if_pos c2] at hread
      exact aux _ _ hread
    rw [if_neg c2] at hread
    by_cases c3 : len > maxPayload
    · rw [if_pos c3] at hread
      exact aux _ _ hread
    rw [if_neg c3] at hread
    by_cases c4 : len < 0
    · rw [if_pos c4] at hread
      cases hread
    rw [if_neg c4] at hread
    by_cases c5 : s.length < e' + m + len.toNat
    · rw [if_pos c5] at hread
      exact aux _ _ hread
    rw [if_neg c5] at hread
    injection hread with h1 _
    rw [← h1] at he
    cases he

/-- The masks of `readFrame` in terms of the value of the byte. -/
theorem bit_facts : ∀ b : Byte,
    ((band b 0x80 != 0) = decide (128 ≤ b.val)) ∧
    int (band b 0x0F) = ((b.val % 16 : Nat) : Int) ∧
    int (band b 0x7F) = ((b.val % 128 : Nat) : Int) := by
  decide

theorem maskLen_eq (b : Byte) : maskLen b = if 128 ≤ b.val then 4 else 0 := by
  unfold maskLen
  rw [(bit_facts b).1]
  simp

theorem extLen_eq (b : Byte) :
    extLen (int (band b 0x7F))
      = if b.val % 128 < 126 then 0 else if b.val % 128 = 126 then 2 else 8 := by
  rw [(bit_facts b).2.2]
  unfold extLen
  by_cases h1 : b.val % 128 < 126
  · rw [if_pos h1, if_pos (by omega)]
  · rw [if_neg h1, if_neg (by omega)]
    by_cases h2 : b.val % 128 = 126
    · rw [if_pos h2, if_pos (by omega)]
    · rw [if_neg h2, if_neg (by omega)]

theorem getElem?_unmask (key payload : List Byte) (i : Nat) :
    (unmask key payload)[i]? = (payload[i]?).map (fun b => bxor b (key.getD (i % 4) 0)) := by
  simp [unmask]

/-- Bytes that follow a frame are left on the connection. -/
theorem readFrame_append (f : List Byte) (r : FrameResult) (rest : List Byte)
    (hread : readFrame f = .returned r rest) (hok : r.err = none) (x : List Byte) :
    readFrame (f ++ x) = .returned r (rest ++ x) := by
  match f, hread with
  | [], hread =>
    rw [readFrame_nil] at hread
    injection hread with h1 _
    rw [← h1] at hok
    cases hok
  | [b], hread =>
    rw [readFrame_singleton] at hread
    injection hread with h1 _
    rw [← h1] at hok
    cases hok
  | b1 :: b2 :: s, hread =>
    obtain ⟨c3, c4, c5, hrest, hr⟩ := readFrame_ok_inv b1 b2 s r rest hread hok
    simp only [List.cons_append]
    rw [readFrame_cases]
    generalize extLen (int (band b2 0x7F)) = e at c3 c4 c5 hrest hr ⊢
    have hte : (s ++ x).take e = s.take e := List.take_append_of_le_length (by omega)
    rw [hte]
    generalize resolveLength (int (band b2 0x7F)) (s.take e) = len at c3 c4 c5 hrest hr ⊢
    have hm : maskLen b2 = if (band b2 0x80 != 0) = true then 4 else 0 := rfl
    generalize maskLen b2 = m at c5 hrest hr hm ⊢
    simp only [List.length_append]
    rw [if_neg (by omega), if_neg (by omega), if_neg c3, if_neg c4, if_neg (by omega)]
    have hd1 : (s ++ x).drop (e + m + len.toNat) = s.drop (e + m + len.toNat) ++ x :=
      List.drop_append_of_le_length (by omega)
    have hd2 : ((s ++ x).drop (e + m)).take len.toNat = (s.drop (e + m)).take len.toNat := by
      rw [List.drop_append_of_le_length (by omega)]
      exact List.take_append_of_le_length (by rw [List.length_drop]; omega)
    rw [hd1, hd2, hr, hrest]
    by_cases hb : (band b2 0x80 != 0) = true
    · rw [if_pos hb] at hm
      have hd3 : ((s ++ x).drop e).take 4 = (s.drop e).take 4 := by
        rw [List.drop_append_of_le_length (by omega)]
        exact List.take_append_of_le_length (by rw [List.length_drop]; omega)
      rw [hd3]
    · simp only [hb, Bool.false_eq_true, if_false]

/-- The `switch` never closes the connection. -/
theorem dispatch_no_close (c : Conn) (o : Opcode) (p : List Byte) :
    ∃ evs, (dispatch c o p).2.trace = c.trace ++ evs ∧ Event.close ∉ evs := by
  have hs : ∀ op, ∃ evs, (sendFrame c op p).2.trace = c.trace ++ evs ∧ Event.close ∉ evs := by
    intro op
    obtain ⟨wr, evs, he, hev⟩ := sendFrame_effect c op p
    refine ⟨evs, by rw [he], ?_⟩
    intro hmem
    obtain ⟨buf, err, hb⟩ := hev _ hmem
    cases hb
  unfold dispatch
  by_cases h1 : o = Text
  · rw [if_pos h1]
    exact ⟨[.println (.text p)], rfl, by simp⟩
  rw [if_neg h1]
  by_cases h2 : o = Ping
  · rw [if_pos h2]
    exact hs Pong
  rw [if_neg h2]
  by_cases h3 : o = Close
  · rw [if_pos h3]
    obtain ⟨evs, he, hn⟩ := hs Close
    refine ⟨evs ++ [.println (.close p)], ?_, ?_⟩
    · simp [Conn.emit, he]
    · simp [hn]
  rw [if_neg h3]
  by_cases h4 : o = Binary
  · rw [if_pos h4]
    exact ⟨[.create, .println .binaryWritten], by simp [Conn.emit], by simp⟩
  rw [if_neg h4]
  exact ⟨[.println (.unsupportedOpcode o)], rfl, by simp⟩

/-- A pass through the loop never closes the connection. -/
theorem loopBody_no_close (c : Conn) :
    ∃ evs, (loopBody c).2.trace = c.trace ++ evs ∧ Event.close ∉ evs := by
  unfold loopBody
  cases hr : readFrame c.input with
  | panicked rest => exact ⟨[.read], rfl, by simp⟩
  | returned r rest =>
    simp only []
    cases he : r.err with
    | some err =>
      simp only []
      by_cases hE : isEOF err = true
      · exact ⟨[.read, .println .connectionClosedByClient], by simp [hE, Conn.emit], by simp⟩
      · exact ⟨[.read, .println (.readFrameErr err)], by simp [hE, Conn.emit], by simp⟩
    | none =>
      simp only []
      obtain ⟨evs, hd, hn⟩ :=
        dispatch_no_close ⟨rest, c.writeResults, c.trace ++ [.read]⟩ r.opcode (r.payload.getD [])
      generalize dispatch ⟨rest, c.writeResults, c.trace ++ [.read]⟩ r.opcode
        (r.payload.getD []) = d at hd
      rcases d with ⟨ret, c2⟩
      simp only [] at hd
      cases ret with
      | true =>
        refine ⟨.read :: evs, by simp [hd], ?_⟩
        simp [hn]
      | false =>
        cases r.fin with
        | true =>
          refine ⟨.read :: evs, by simp [hd], ?_⟩
          simp [hn]
        | false =>
          refine ⟨.read :: evs ++ [.println .continuationNotSupported],
            by simp [hd, Conn.emit], ?_⟩
          simp [hn]

/-- The loop never closes the connection. -/
theorem sessionLoop_no_close (fuel : Nat) (c : Conn) :
    ∃ evs, (sessionLoop fuel c).2.trace = c.trace ++ evs ∧ Event.close ∉ evs := by
  induction fuel generalizing c with
  | zero => exact ⟨[], by simp [sessionLoop], by simp⟩
  | succ n ih =>
    unfold sessionLoop
    obtain ⟨evs, he, hn⟩ := loopBody_no_close c
    generalize loopBody c = b at he
    rcases b with ⟨e, c1⟩
    simp only [] at he
    cases e with
    | some e => exact ⟨evs, he, hn⟩
    | none =>
      simp only []
      obtain ⟨evs2, he2, hn2⟩ := ih c1
      refine ⟨evs ++ evs2, by rw [he2, he, List.append_assoc], ?_⟩
      simp [hn, hn2]

/-- Only the Close case of the `switch` returns. -/
theorem dispatch_returns (c : Conn) (o : Opcode) (p : List Byte) :
    (dispatch c o p).1 = true ↔ o = Close := by
  unfold dispatch
  by_cases h1 : o = Text
  · rw [if_pos h1, h1]
    simp only [Bool.false_eq_true, false_iff]
    decide
  rw [if_neg h1]
  by_cases h2 : o = Ping
  · rw [if_pos h2, h2]
    simp only [Bool.false_eq_true, false_iff]
    decide
  rw [if_neg h2]
  by_cases h3 : o = Close
  · rw [if_pos h3]
    simp [h3]
  rw [if_neg h3]
  by_cases h4 : o = Binary
  · rw [if_pos h4]
    simp [h3]
  rw [if_neg h4]
  simp [h3]

/-- An unmasked frame that announces 65536 bytes in the 64-bit form and is
followed by 65663 bytes is read as a frame of 65663 bytes. -/
theorem readFrame_unmasked_65663 (b1 : Byte) (payload : List Byte)
    (h : payload.length = 65663) :
    readFrame (b1 :: 127 :: [0, 0, 0, 0, 0, 1, 0, 0] ++ payload)
      = .returned ⟨band b1 0x80 != 0, int (band b1 0x0F), some payload, none⟩ [] := by
  have e1 : readFull (b1 :: 127 :: [0, 0, 0, 0, 0, 1, 0, 0] ++ payload) 2
      = (.ok [b1, 127], [0, 0, 0, 0, 0, 1, 0, 0] ++ payload) :=
    readFull_append [b1, 127] ([0, 0, 0, 0, 0, 1, 0, 0] ++ payload)
  have e3 : int (band 127 0x7F) = 127 := by decide
  have hn : (65663 : Int).toNat = payload.length := by
    rw [h]
    rfl
  have e4 : readFull payload (65663 : Int).toNat = (.ok payload, []) := by
    rw [hn]
    have := readFull_append payload []
    simpa using this
  have e5 : (band 127 0x80 != 0) = false := by decide
  have h6 : ¬ ((65663 : Int) > maxPayload) := by norm_num [maxPayload]
  have h7 : ¬ ((65663 : Int) < 0) := by norm_num
  unfold readFrame
  rw [e1]
  simp only [List.getD_cons_zero, List.getD_cons_succ, e3, readPayloadLength_65536, e5,
    Bool.false_eq_true, if_false, if_neg h6, if_neg h7, e4]

/-! ## Frame round trips -/

/-- C1, at the input where the code departs from it: the bytes `sendFrame`
writes for a Text frame with a payload of 65536 zero bytes are not read back by
`readFrame`. The 64-bit length 65536 is resolved to 65663, and the read of the
payload ends with `io.ErrUnexpectedEOF`. -/
theorem C1_roundtrip_fails_at_65536 :
    (readPayloadLength [0, 0, 0, 0, 0, 1, 0, 0] 127).1 = .ok 65663 ∧
    readFrame (wire (sendFrame ⟨[], [], []⟩ Text (List.replicate 65536 0)).2.trace)
      = .returned (failed .ErrUnexpectedEOF) [] := by
  refine ⟨?_, ?_⟩
  · have := readPayloadLength_65536 []
    simp only [List.append_nil] at this
    rw [this]
  · rw [wire_sendFrame, List.length_replicate]
    have h : ((65536 : Nat) : Int) = 65536 := by norm_num
    rw [h, frameHeader_65536]
    exact readFrame_unmasked_65536 _ _ (List.length_replicate _ _)

/-- C2, at the input where the code departs from it: the masked Binary frame
with key 1, 2, 3, 4 and a payload of 65536 zero bytes is not decoded into its
payload; `readFrame` fails with `io.ErrUnexpectedEOF`. -/
theorem C2_masked_roundtrip_fails_at_65536 :
    readFrame (maskedFrame Binary [1, 2, 3, 4] (List.replicate 65536 0))
      = .returned (failed .ErrUnexpectedEOF) [] := by
  rw [maskedFrame_65536 _ _ _ (List.length_replicate _ _)]
  exact readFrame_masked_65536 _ [1, 2, 3, 4] _ rfl
    (by rw [length_applyMask, List.length_replicate])

/-! ## The frame writer -/

/-- C3: for every opcode in 0..15 and every payload of length n, the first
buffer `sendFrame` writes is the header: the byte 0x80 | opcode, then n itself
when n < 126, the byte 126 and the two big-endian bytes of n when
126 <= n <= 65535, and the byte 127 and the eight big-endian bytes of n
otherwise. The mask bit of the second byte is 0. Lengths 125, 126 and 65536 give
the second byte 125, the bytes 126, 0x00, 0x7E, and the byte 127 followed by
0, 0, 0, 0, 0, 1, 0, 0. -/
theorem C3_header_encoding (c : Conn) (opcode : Opcode) (payload : List Byte)
    (h0 : 0 ≤ opcode) (h1 : opcode ≤ 15) :
    ∃ header r rest,
      (sendFrame c opcode payload).2.trace = c.trace ++ Event.write header r :: rest ∧
      (payload.length < 126 →
        header = [byteOfNat (0x80 ||| opcode.toNat), byteOfNat payload.length]) ∧
      (126 ≤ payload.length → payload.length ≤ 65535 →
        header = [byteOfNat (0x80 ||| opcode.toNat), 126, byteOfNat (payload.length / 256),
          byteOfNat (payload.length % 256)]) ∧
      (65535 < payload.length →
        header = [byteOfNat (0x80 ||| opcode.toNat), 127] ++ beBytes 8 payload.length) ∧
      band (header.getD 1 0) 0x80 = 0 ∧
      (payload.length = 125 → header = [byteOfNat (0x80 ||| opcode.toNat), 125]) ∧
      (payload.length = 126 → header = [byteOfNat (0x80 ||| opcode.toNat), 126, 0x00, 0x7E]) ∧
      (payload.length = 65536 →
        header = [byteOfNat (0x80 ||| opcode.toNat), 127, 0, 0, 0, 0, 0, 1, 0, 0]) := by
  obtain ⟨r, rest, htr⟩ := sendFrame_trace c opcode payload
  have hsmall : payload.length < 126 → frameHeader opcode payload.length
      = [byteOfNat (0x80 ||| opcode.toNat), byteOfNat payload.length] := by
    intro h
    rw [frameHeader_small _ _ (by omega), firstByte _ h0 h1, bor_zero_left, byte_natCast]
  have hmed : 126 ≤ payload.length → payload.length ≤ 65535 → frameHeader opcode payload.length
      = [byteOfNat (0x80 ||| opcode.toNat), 126, byteOfNat (payload.length / 256),
          byteOfNat (payload.length % 256)] := by
    intro h h'
    rw [frameHeader_medium _ _ (by omega) (by omega), firstByte _ h0 h1, byte_shr, byte_natCast,
      Nat.shiftRight_eq_div_pow]
    have e : byteOfNat (payload.length % 256) = byteOfNat payload.length := by
      apply Fin.ext
      simp [byteOfNat]
    rw [e]
  have hlarge : 65535 < payload.length → frameHeader opcode payload.length
      = [byteOfNat (0x80 ||| opcode.toNat), 127] ++ beBytes 8 payload.length := by
    intro h
    rw [frameHeader_large _ _ (by omega), firstByte _ h0 h1, beBytes_eight]
    simp only [byte_shr, List.cons_append, List.nil_append]
  refine ⟨frameHeader opcode payload.length, r, rest, htr, hsmall, hmed, hlarge, ?_, ?_, ?_, ?_⟩
  · by_cases ha : payload.length < 126
    · rw [hsmall ha]
      simp only [List.getD_cons_succ, List.getD_cons_zero]
      generalize payload.length = n at ha
      interval_cases n <;> decide
    · by_cases hb : payload.length ≤ 65535
      · rw [hmed (by omega) hb]
        simp only [List.getD_cons_succ, List.getD_cons_zero]
        decide
      · rw [hlarge (by omega)]
        simp only [List.cons_append, List.getD_cons_succ, List.getD_cons_zero]
        decide
  · intro h
    rw [hsmall (by omega), h]
    simp only [List.cons.injEq, true_and, and_true]
    decide
  · intro h
    rw [hmed (by omega) (by omega), h]
    simp only [List.cons.injEq, true_and, and_true]
    decide
  · intro h
    rw [hlarge (by omega), h]
    simp only [List.cons_append, List.nil_append, List.cons.injEq, true_and]
    decide

theorem C3_header_encoding_witness :
    ∃ header r rest,
      (sendFrame ⟨[], [], []⟩ Pong [0x68, 0x69]).2.trace
        = ([] : List Event) ++ Event.write header r :: rest ∧
      ([0x68, 0x69].length < 126 →
        header = [byteOfNat (0x80 ||| Pong.toNat), byteOfNat [0x68, 0x69].length]) ∧
      (126 ≤ [0x68, 0x69].length → [0x68, 0x69].length ≤ 65535 →
        header = [byteOfNat (0x80 ||| Pong.toNat), 126, byteOfNat ([0x68, 0x69].length / 256),
          byteOfNat ([0x68, 0x69].length % 256)]) ∧
      (65535 < [0x68, 0x69].length →
        header = [byteOfNat (0x80 ||| Pong.toNat), 127] ++ beBytes 8 [0x68, 0x69].length) ∧
      band (header.getD 1 0) 0x80 = 0 ∧
      ([0x68, 0x69].length = 125 → header = [byteOfNat (0x80 ||| Pong.toNat), 125]) ∧
      ([0x68, 0x69].length = 126 →
        header = [byteOfNat (0x80 ||| Pong.toNat), 126, 0x00, 0x7E]) ∧
      ([0x68, 0x69].length = 65536 →
        header = [byteOfNat (0x80 ||| Pong.toNat), 127, 0, 0, 0, 0, 0, 1, 0, 0]) :=
  C3_header_encoding ⟨[], [], []⟩ Pong [0x68, 0x69] (by decide) (by decide)

/-! ## The frame reader -/

/-- C4, at the input where the code departs from it: a header that declares a
64-bit length with the top bit set. The length is negative as an `int`, the
test against the cap lets it through, and `make` panics; the session ends in
that panic instead of a payload-too-large error. -/
theorem C4_top_bit_length_panics :
    readFrame [0x82, 0x7F, 0x80, 0, 0, 0, 0, 0, 0, 0] = .panicked [] ∧
    (handleWebsocketConnection ⟨[0x82, 0x7F, 0x80, 0, 0, 0, 0, 0, 0, 0], [], []⟩).1
      = .panicked := by
  decide

/-- C5, as stated, fails. A stream that ends right after the two header bytes
of a frame with a 16-bit length makes `readFrame` return `io.EOF`, the error of
an empty stream, and the session prints "Connection closed by client". A stream
that ends inside the payload of a frame whose 64-bit length has the top bit set
makes `readFrame` panic, so that no error is returned at all. -/
theorem C5_eof_after_header :
    readFrame [0x81, 0x7E] = .returned (failed .EOF) [] ∧
    readFrame [] = .returned (failed .EOF) [] ∧
    handleWebsocketConnection ⟨[0x81, 0x7E], [], []⟩
      = (.returned, ⟨[], [], [.read, .println .connectionClosedByClient, .close]⟩) ∧
    readFrame [0x82, 0x7F, 0x80, 0, 0, 0, 0, 0, 0, 0, 0xAA] = .panicked [0xAA] := by
  decide

/-- C5, amended: take any stream that ends inside one of the reads of
`readFrame`: after one header byte, inside the extended length, inside the mask
key, or inside the payload, the payload being as long as the length that
`readPayloadLength` resolves (a negative length has no payload to end in). Then
`readFrame` fails with an error that is not the `io.EOF` of an empty stream: it
is `io.ErrUnexpectedEOF`, or the payload-too-large error when the resolved
length is above the cap; and the session prints "readFrame err:" with that
error and not "Connection closed by client". Nothing is assumed about the
stream beyond where it ends. -/
theorem C5_short_read_inside_a_read (s : List Byte)
    (h : s.length = 1 ∨
      (2 < s.length ∧ s.length < 2 + extLen (int (band (s.getD 1 0) 0x7F))) ∨
      (2 + extLen (int (band (s.getD 1 0) 0x7F)) < s.length ∧
        s.length < 2 + extLen (int (band (s.getD 1 0) 0x7F)) + maskLen (s.getD 1 0)) ∨
      (2 + extLen (int (band (s.getD 1 0) 0x7F)) + maskLen (s.getD 1 0) < s.length ∧
        s.length < 2 + extLen (int (band (s.getD 1 0) 0x7F)) + maskLen (s.getD 1 0)
          + (resolveLength (int (band (s.getD 1 0) 0x7F))
              ((s.drop 2).take (extLen (int (band (s.getD 1 0) 0x7F))))).toNat)) :
    ∃ err rest, readFrame s = .returned (failed err) rest ∧
      err ≠ GoError.EOF ∧
      (err = .ErrUnexpectedEOF ∨
        (maxPayload < resolveLength (int (band (s.getD 1 0) 0x7F))
            ((s.drop 2).take (extLen (int (band (s.getD 1 0) 0x7F)))) ∧
          err = .payloadTooLarge (resolveLength (int (band (s.getD 1 0) 0x7F))
            ((s.drop 2).take (extLen (int (band (s.getD 1 0) 0x7F))))) maxPayload)) ∧
      readFrame [] = .returned (failed .EOF) [] ∧
      ∀ wr tr, handleWebsocketConnection ⟨s, wr, tr⟩
        = (.returned, ⟨rest, wr, tr ++ [.read, .println (.readFrameErr err), .close]⟩) := by
  have fin : ∀ (err : GoError) (rest : List Byte), readFrame s = .returned (failed err) rest →
      isEOF err = false →
      ∀ wr tr, handleWebsocketConnection ⟨s, wr, tr⟩
        = (.returned, ⟨rest, wr, tr ++ [.read, .println (.readFrameErr err), .close]⟩) := by
    intro err rest hr hE wr tr
    have := handle_of_readFrame_error ⟨s, wr, tr⟩ err rest hr
    rw [hE] at this
    simpa using this
  match s, h, fin with
  | [], h, _ =>
    simp only [List.length_nil] at h
    omega
  | [b], _, fin =>
    exact ⟨.ErrUnexpectedEOF, [], readFrame_singleton b, by decide, Or.inl rfl, readFrame_nil,
      fin _ _ (readFrame_singleton b) rfl⟩
  | b1 :: b2 :: s, h, fin =>
    simp only [List.getD_cons_succ, List.getD_cons_zero, List.drop_succ_cons, List.drop_zero,
      List.length_cons] at h ⊢
    have hc := readFrame_cases b1 b2 s
    generalize extLen (int (band b2 0x7F)) = e at h hc ⊢
    generalize maskLen b2 = m at h hc ⊢
    generalize resolveLength (int (band b2 0x7F)) (s.take e) = len at h hc ⊢
    have ueof : readFrame (b1 :: b2 :: s) = .returned (failed .ErrUnexpectedEOF) [] →
        ∃ err rest, readFrame (b1 :: b2 :: s) = .returned (failed err) rest ∧
          err ≠ GoError.EOF ∧
          (err = .ErrUnexpectedEOF ∨
            (maxPayload < len ∧ err = .payloadTooLarge len maxPayload)) ∧
          readFrame [] = .returned (failed .EOF) [] ∧
          ∀ wr tr, handleWebsocketConnection ⟨b1 :: b2 :: s, wr, tr⟩
            = (.returned, ⟨rest, wr, tr ++ [.read, .println (.readFrameErr err), .close]⟩) :=
      fun hr => ⟨_, _, hr, by decide, Or.inl rfl, readFrame_nil, fin _ _ hr rfl⟩
    rcases h with h | h | h | h
    · omega
    · apply ueof
      rw [hc, if_pos (by omega), if_neg (by omega)]
    · apply ueof
      rw [hc, if_neg (by omega), if_pos (by omega), if_neg (by omega)]
    · by_cases c3 : len > maxPayload
      · have hr : readFrame (b1 :: b2 :: s)
            = .returned (failed (.payloadTooLarge len maxPayload)) (s.drop (e + m)) := by
          rw [hc, if_neg (by omega), if_neg (by omega), if_pos c3]
        exact ⟨_, _, hr, by simp, Or.inr ⟨c3, rfl⟩, readFrame_nil, fin _ _ hr rfl⟩
      · apply ueof
        rw [hc, if_neg (by omega), if_neg (by omega), if_neg c3, if_neg (by omega),
          if_pos (by omega), if_neg (by omega)]

theorem C5_short_read_inside_a_read_witness :
    ∃ err rest, readFrame ([0x81, 0x7F, 0x00, 0x00, 0x00, 0x00, 0x7F, 0x00, 0x00, 0x00, 0xAA] : List Byte) = .returned (failed err) rest ∧
      err ≠ GoError.EOF ∧
      (err = .ErrUnexpectedEOF ∨
        (maxPayload < (resolveLength (int (band (([0x81, 0x7F, 0x00, 0x00, 0x00, 0x00, 0x7F, 0x00, 0x00, 0x00, 0xAA] : List Byte).getD 1 0) 0x7F))
          ((([0x81, 0x7F, 0x00, 0x00, 0x00, 0x00, 0x7F, 0x00, 0x00, 0x00, 0xAA] : List Byte).drop 2).take (extLen (int (band (([0x81, 0x7F, 0x00, 0x00, 0x00, 0x00, 0x7F, 0x00, 0x00, 0x00, 0xAA] : List Byte).getD 1 0) 0x7F))))) ∧
          err = .payloadTooLarge (resolveLength (int (band (([0x81, 0x7F, 0x00, 0x00, 0x00, 0x00, 0x7F, 0x00, 0x00, 0x00, 0xAA] : List Byte).getD 1 0) 0x7F))
          ((([0x81, 0x7F, 0x00, 0x00, 0x00, 0x00, 0x7F, 0x00, 0x00, 0x00, 0xAA] : List Byte).drop 2).take (extLen (int (band (([0x81, 0x7F, 0x00, 0x00, 0x00, 0x00, 0x7F, 0x00, 0x00, 0x00, 0xAA] : List Byte).getD 1 0) 0x7F))))) maxPayload)) ∧
      readFrame [] = .returned (failed .EOF) [] ∧
      ∀ wr tr, handleWebsocketConnection ⟨([0x81, 0x7F, 0x00, 0x00, 0x00, 0x00, 0x7F, 0x00, 0x00, 0x00, 0xAA] : List Byte), wr, tr⟩
        = (.returned, ⟨rest, wr, tr ++ [.read, .println (.readFrameErr err), .close]⟩) :=
  C5_short_read_inside_a_read [0x81, 0x7F, 0x00, 0x00, 0x00, 0x00, 0x7F, 0x00, 0x00, 0x00, 0xAA]
    (by decide)

/-! ## The session loop -/

/-- C6, as stated, fails: a Ping frame with fin = 0 is answered with a Pong
frame before the session ends, and a Close frame with fin = 0 is echoed and
ends the session without the report about continuation frames. -/
theorem C6_non_final_ping_is_answered :
    handleWebsocketConnection ⟨[0x09, 0x00], [], []⟩
      = (.returned, ⟨[], [], [.read, .write [0x8A, 0x00] none,
          .println .continuationNotSupported, .close]⟩) ∧
    handleWebsocketConnection ⟨[0x08, 0x00], [], []⟩
      = (.returned, ⟨[], [], [.read, .write [0x88, 0x00] none, .println (.close []),
          .close]⟩) := by
  decide

/-- C6, amended: for every received frame with fin = false, whatever its opcode,
`handleWebsocketConnection` returns after that frame without another read and
closes the connection. Unless the opcode is Close, the last thing it does
before closing is to print "Continuation frames not supported". Unless the
opcode is Ping or Close, it writes nothing. -/
theorem C6_non_final_frame_ends_session (c : Conn) (o : Opcode) (p rest : List Byte)
    (hread : readFrame c.input = .returned ⟨false, o, some p, none⟩ rest) :
    ∃ c' evs, handleWebsocketConnection c = (.returned, c') ∧ c'.input = rest ∧
      c'.trace = c.trace ++ Event.read :: evs ++ [Event.close] ∧ Event.read ∉ evs ∧
      (o ≠ Close → evs.getLast? = some (.println .continuationNotSupported)) ∧
      (o ≠ Ping → o ≠ Close → ∀ buf err, Event.write buf err ∉ evs) := by
  obtain ⟨ret, wr, evs, hd, hnr, hnw⟩ :=
    dispatch_effect ⟨rest, c.writeResults, c.trace ++ [.read]⟩ o p
  have hret := dispatch_returns ⟨rest, c.writeResults, c.trace ++ [.read]⟩ o p
  rw [hd] at hret
  simp only [] at hret
  unfold handleWebsocketConnection sessionLoop loopBody
  rw [hread]
  simp only [Option.getD_some]
  rw [hd]
  cases ret with
  | true =>
    have hc : o = Close := hret.mp rfl
    refine ⟨_, evs, rfl, rfl, by simp [Conn.emit], hnr, fun h => absurd hc h,
      fun _ h => absurd hc h⟩
  | false =>
    refine ⟨_, evs ++ [.println .continuationNotSupported], rfl, rfl, by simp [Conn.emit], ?_,
      fun _ => by simp, ?_⟩
    · simp [hnr]
    · intro h1 h2 buf err hmem
      simp only [List.mem_append, List.mem_singleton] at hmem
      rcases hmem with hmem | hmem
      · exact (hnw h1 h2).2 buf err hmem
      · cases hmem

theorem C6_non_final_frame_ends_session_witness :
    ∃ c' evs, handleWebsocketConnection ⟨[0x09, 0x00, 0x81, 0x00], [], []⟩ = (.returned, c') ∧
      c'.input = [0x81, 0x00] ∧
      c'.trace = ([] : List Event) ++ Event.read :: evs ++ [Event.close] ∧ Event.read ∉ evs ∧
      (Ping ≠ Close → evs.getLast? = some (.println .continuationNotSupported)) ∧
      (Ping ≠ Ping → Ping ≠ Close → ∀ buf err, Event.write buf err ∉ evs) :=
  C6_non_final_frame_ends_session ⟨[0x09, 0x00, 0x81, 0x00], [], []⟩ Ping [] [0x81, 0x00]
    (by decide)

/-- C7: when the session reads a final Ping frame with a payload p of at most
125 bytes on a connection that accepts its writes, the pass through the loop
writes the bytes 0x8A, len(p), p and nothing else: one frame with fin = 1,
MASK = 0, opcode Pong and payload p, as `readFrame` reads it back. The loop
then goes on to another pass, which starts with a read. -/
theorem C7_ping_answered_by_one_pong (c : Conn) (p rest : List Byte)
    (hread : readFrame c.input = .returned ⟨true, Ping, some p, none⟩ rest)
    (hp : p.length ≤ 125) (hw : ∀ r ∈ c.writeResults, r = none) :
    ∃ c' evs, loopBody c = (none, c') ∧ c'.input = rest ∧
      c'.trace = c.trace ++ Event.read :: evs ∧
      (∀ e ∈ evs, ∃ buf, e = Event.write buf none) ∧
      wire evs = [0x8A, byteOfNat p.length] ++ p ∧
      band (byteOfNat p.length) 0x80 = 0 ∧
      readFrame (wire evs) = .returned ⟨true, Pong, some p, none⟩ [] ∧
      (∀ fuel, sessionLoop (fuel + 1) c = sessionLoop fuel c') ∧
      ∃ evs', (loopBody c').2.trace = c'.trace ++ Event.read :: evs' := by
  obtain ⟨wr, evs, hs, hev, hwire⟩ :=
    sendFrame_ok ⟨rest, c.writeResults, c.trace ++ [.read]⟩ Pong p hw
  have hl : loopBody c = (none, ⟨rest, wr, c.trace ++ [.read] ++ evs⟩) := by
    unfold loopBody
    rw [hread]
    simp only [Option.getD_some]
    unfold dispatch
    rw [if_neg (by decide), if_pos rfl, hs]
    rfl
  have hh : frameHeader Pong p.length = [0x8A, byteOfNat p.length] := by
    rw [frameHeader_small _ _ (by omega), bor_zero_left, byte_natCast]
    rfl
  rw [hh] at hwire
  refine ⟨_, evs, hl, rfl, by simp, hev, hwire, (band_small _ hp).2.1, ?_, ?_,
    loopBody_reads_first _⟩
  · rw [hwire]
    have := readFrame_small 0x8A p [] hp
    simp only [List.append_nil] at this
    exact this
  · intro fuel
    show (match loopBody c with
      | (some e, c1) => (e, c1)
      | (none, c1) => sessionLoop fuel c1) = _
    rw [hl]

theorem C7_ping_answered_by_one_pong_witness :
    ∃ c' evs, loopBody ⟨[0x89, 0x02, 0x68, 0x69], [], []⟩ = (none, c') ∧ c'.input = [] ∧
      c'.trace = ([] : List Event) ++ Event.read :: evs ∧
      (∀ e ∈ evs, ∃ buf, e = Event.write buf none) ∧
      wire evs = [0x8A, byteOfNat [0x68, 0x69].length] ++ [0x68, 0x69] ∧
      band (byteOfNat [0x68, 0x69].length) 0x80 = 0 ∧
      readFrame (wire evs) = .returned ⟨true, Pong, some [0x68, 0x69], none⟩ [] ∧
      (∀ fuel, sessionLoop (fuel + 1) ⟨[0x89, 0x02, 0x68, 0x69], [], []⟩
        = sessionLoop fuel c') ∧
      ∃ evs', (loopBody c').2.trace = c'.trace ++ Event.read :: evs' :=
  C7_ping_answered_by_one_pong ⟨[0x89, 0x02, 0x68, 0x69], [], []⟩ [0x68, 0x69] []
    (by decide) (by decide) (by simp)

/-- C8: when the session reads a Close frame with payload p on a connection
that accepts its writes, `handleWebsocketConnection` writes the bytes of one
unmasked final Close frame with payload p (0x88, the length field, p), prints
the payload, closes the connection and returns. It reads nothing more: the
bytes after the frame are left on the connection. -/
theorem C8_close_echoed_once (c : Conn) (fin : Bool) (p rest : List Byte)
    (hread : readFrame c.input = .returned ⟨fin, Close, some p, none⟩ rest)
    (hw : ∀ r ∈ c.writeResults, r = none) :
    ∃ c' evs, handleWebsocketConnection c = (.returned, c') ∧ c'.input = rest ∧
      c'.trace = c.trace ++ Event.read :: evs ++ [.println (.close p), .close] ∧
      (∀ e ∈ evs, ∃ buf, e = Event.write buf none) ∧
      wire evs = 0x88 :: lengthField p.length ++ p ∧
      band ((lengthField p.length).getD 0 0) 0x80 = 0 := by
  obtain ⟨wr, evs, hs, hev, hwire⟩ :=
    sendFrame_ok ⟨rest, c.writeResults, c.trace ++ [.read]⟩ Close p hw
  have hh : frameHeader Close p.length = 0x88 :: lengthField p.length := by
    rw [frameHeader_eq_lengthField _ _ (by decide) (by decide)]
    rfl
  rw [hh] at hwire
  refine ⟨⟨rest, wr, c.trace ++ [.read] ++ evs ++ [.println (.close p), .close]⟩, evs, ?_, rfl,
    by simp, hev, hwire, lengthField_unmasked _⟩
  unfold handleWebsocketConnection sessionLoop loopBody
  rw [hread]
  simp only [Option.getD_some]
  unfold dispatch
  rw [if_neg (by decide), if_neg (by decide), if_pos rfl, hs]
  simp [Conn.emit]

theorem C8_close_echoed_once_witness :
    ∃ c' evs,
      handleWebsocketConnection ⟨[0x88, 0x03, 0x62, 0x79, 0x65, 0x81, 0x00], [], []⟩
        = (.returned, c') ∧
      c'.input = [0x81, 0x00] ∧
      c'.trace = ([] : List Event) ++ Event.read :: evs
        ++ [.println (.close [0x62, 0x79, 0x65]), .close] ∧
      (∀ e ∈ evs, ∃ buf, e = Event.write buf none) ∧
      wire evs = 0x88 :: lengthField [0x62, 0x79, 0x65].length ++ [0x62, 0x79, 0x65] ∧
      band ((lengthField [0x62, 0x79, 0x65].length).getD 0 0) 0x80 = 0 :=
  C8_close_echoed_once ⟨[0x88, 0x03, 0x62, 0x79, 0x65, 0x81, 0x00], [], []⟩ true
    [0x62, 0x79, 0x65] [0x81, 0x00] (by decide) (by simp)

/-! ## The handshake -/

/-- C9, at the input where the code departs from it: a request with valid
Connection and Upgrade headers and no Sec-WebSocket-Key. The handler answers
400 and, with no `return` after that answer, goes on to hijack the connection
and to start `handleWebsocketConnection`. -/
theorem C9_missing_key_still_upgrades :
    websocketHandler ⟨str "Upgrade", str "websocket", []⟩ true
      = [.httpError "Missing Sec-WebSocket-Key header key" 400,
          .setHeader "Upgrade" (str "websocket"),
          .setHeader "Connection" (str "Upgrade"),
          .setHeader "Sec-WebSocket-Accept" (acceptedKey []),
          .writeHeader 101,
          .println "Handshake successful!",
          .println "Reading frames...",
          .hijack true,
          .goHandleWebsocketConnection] := by
  have h1 : contains (toLower (str "Upgrade")) (str "upgrade") = true := by decide
  have h2 : equalFold (str "websocket") (str "websocket") = true := by decide
  simp [websocketHandler, h1, h2]

/-- C10: for every request that passes the check of the Connection and Upgrade
headers, the one value the handler sets for Sec-WebSocket-Accept is the
standard base64 encoding of the SHA-1 sum of the client key followed by
"258EAFA5-E914-47DA-95CA-C5AB0DC85B11"; for the key
"dGhlIHNhbXBsZSBub25jZQ==" it is "s3pPLMBiTxaQ9kYGzzhZRbK+xOo=". -/
theorem C10_accept_key (r : Request) (hijackOk : Bool)
    (h1 : contains (toLower r.connection) (str "upgrade") = true)
    (h2 : equalFold r.upgrade (str "websocket") = true) :
    (∀ v, HttpEvent.setHeader "Sec-WebSocket-Accept" v ∈ websocketHandler r hijackOk ↔
      v = base64Std (sha1 (r.secWebSocketKey ++ str "258EAFA5-E914-47DA-95CA-C5AB0DC85B11"))) ∧
    (r.secWebSocketKey = str "dGhlIHNhbXBsZSBub25jZQ==" →
      HttpEvent.setHeader "Sec-WebSocket-Accept" (str "s3pPLMBiTxaQ9kYGzzhZRbK+xOo=")
        ∈ websocketHandler r hijackOk) := by
  have hv : ∀ v, HttpEvent.setHeader "Sec-WebSocket-Accept" v ∈ websocketHandler r hijackOk ↔
      v = base64Std (sha1 (r.secWebSocketKey ++ str "258EAFA5-E914-47DA-95CA-C5AB0DC85B11")) := by
    intro v
    unfold websocketHandler acceptedKey
    rw [h1, h2]
    cases hijackOk <;> by_cases hk : r.secWebSocketKey = [] <;> simp [hk]
  refine ⟨hv, ?_⟩
  intro hk
  rw [hv, hk]
  decide

theorem C10_accept_key_witness :
    (∀ v, HttpEvent.setHeader "Sec-WebSocket-Accept" v
        ∈ websocketHandler ⟨str "Upgrade", str "websocket", str "dGhlIHNhbXBsZSBub25jZQ=="⟩ true ↔
      v = base64Std (sha1 ((⟨str "Upgrade", str "websocket",
        str "dGhlIHNhbXBsZSBub25jZQ=="⟩ : Request).secWebSocketKey
          ++ str "258EAFA5-E914-47DA-95CA-C5AB0DC85B11"))) ∧
    ((⟨str "Upgrade", str "websocket", str "dGhlIHNhbXBsZSBub25jZQ=="⟩ : Request).secWebSocketKey
        = str "dGhlIHNhbXBsZSBub25jZQ==" →
      HttpEvent.setHeader "Sec-WebSocket-Accept" (str "s3pPLMBiTxaQ9kYGzzhZRbK+xOo=")
        ∈ websocketHandler ⟨str "Upgrade", str "websocket", str "dGhlIHNhbXBsZSBub25jZQ=="⟩
          true) :=
  C10_accept_key ⟨str "Upgrade", str "websocket", str "dGhlIHNhbXBsZSBub25jZQ=="⟩ true
    (by decide) (by decide)

/-! ## The frame reader, continued -/

/-- Whenever `readFrame` succeeds, the payload it returns has exactly the
length that `readPayloadLength` resolved. On a stream that holds the header, the
extended length and the mask key of a frame whose length is within the cap, but
fewer payload bytes than that length, `readFrame` fails and returns `false`,
-1 and a nil payload. Every failure of `readFrame` returns these values. -/
theorem readFrame_no_partial_frame (f : List Byte) :
    (∀ r rest, readFrame f = .returned r rest → r.err = none →
      ∃ p, r.payload = some p ∧
        (p.length : Int) = resolveLength (int (band (f.getD 1 0) 0x7F))
          ((f.drop 2).take (extLen (int (band (f.getD 1 0) 0x7F))))) ∧
    (2 + extLen (int (band (f.getD 1 0) 0x7F)) + maskLen (f.getD 1 0) ≤ f.length →
      0 ≤ resolveLength (int (band (f.getD 1 0) 0x7F))
          ((f.drop 2).take (extLen (int (band (f.getD 1 0) 0x7F)))) →
      resolveLength (int (band (f.getD 1 0) 0x7F))
          ((f.drop 2).take (extLen (int (band (f.getD 1 0) 0x7F)))) ≤ maxPayload →
      f.length < 2 + extLen (int (band (f.getD 1 0) 0x7F)) + maskLen (f.getD 1 0)
        + (resolveLength (int (band (f.getD 1 0) 0x7F))
            ((f.drop 2).take (extLen (int (band (f.getD 1 0) 0x7F))))).toNat →
      ∃ err, readFrame f = .returned ⟨false, -1, none, some err⟩ []) ∧
    (∀ r rest err, readFrame f = .returned r rest → r.err = some err →
      r.fin = false ∧ r.opcode = -1 ∧ r.payload = none) := by
  refine ⟨?_, ?_, ?_⟩
  · intro r rest hread hok
    match f, hread with
    | [], hread =>
      rw [readFrame_nil] at hread
      injection hread with h1 _
      rw [← h1] at hok
      cases hok
    | [b], hread =>
      rw [readFrame_singleton] at hread
      injection hread with h1 _
      rw [← h1] at hok
      cases hok
    | b1 :: b2 :: s, hread =>
      obtain ⟨_, c4, c5, _, hr⟩ := readFrame_ok_inv b1 b2 s r rest hread hok
      simp only [List.getD_cons_succ, List.getD_cons_zero, List.drop_succ_cons, List.drop_zero]
      generalize extLen (int (band b2 0x7F)) = e at c4 c5 hr ⊢
      generalize maskLen b2 = m at c5 hr
      generalize resolveLength (int (band b2 0x7F)) (s.take e) = len at c4 c5 hr ⊢
      have hl : ((s.drop (e + m)).take len.toNat).length = len.toNat := by
        rw [List.length_take, List.length_drop]
        omega
      rw [hr]
      refine ⟨_, rfl, ?_⟩
      split
      · rw [length_unmask, hl]
        omega
      · rw [hl]
        omega
  · intro h1 h2 h3 h4
    match f, h1, h2, h3, h4 with
    | [], h1, _, _, _ => simp at h1
    | [b], h1, _, _, _ =>
      simp only [List.length_singleton] at h1
      omega
    | b1 :: b2 :: s, h1, h2, h3, h4 =>
      simp only [List.getD_cons_succ, List.getD_cons_zero, List.drop_succ_cons, List.drop_zero,
        List.length_cons] at h1 h2 h3 h4
      rw [readFrame_cases]
      generalize extLen (int (band b2 0x7F)) = e at h1 h2 h3 h4 ⊢
      generalize maskLen b2 = m at h1 h4 ⊢
      generalize resolveLength (int (band b2 0x7F)) (s.take e) = len at h2 h3 h4 ⊢
      rw [if_neg (by omega), if_neg (by omega), if_neg (by omega), if_neg (by omega),
        if_pos (by omega)]
      exact ⟨_, rfl⟩
  · intro r rest err hread he
    rw [readFrame_error_shape f r rest err hread he]
    exact ⟨rfl, rfl, rfl⟩

/-- C13, at the inputs where the code departs from it. A header that declares a
64-bit length with the top bit set, followed by three bytes: the stream ends
before the payload, and `readFrame` panics in `make` instead of failing with
`false`, -1 and a nil payload. A header that declares 65536 bytes, followed by
65663 bytes: `readFrame` succeeds and returns 65663 bytes, 127 more than the
length the header declares. -/
theorem C13_declared_length_not_kept :
    readFrame [0x82, 0x7F, 0x80, 0, 0, 0, 0, 0, 0, 0, 1, 2, 3] = .panicked [1, 2, 3] ∧
    readFrame (0x82 :: 0x7F :: [0, 0, 0, 0, 0, 1, 0, 0] ++ List.replicate 65663 0)
      = .returned ⟨true, Binary, some (List.replicate 65663 0), none⟩ [] ∧
    (List.replicate 65663 (0 : Byte)).length ≠ 65536 := by
  refine ⟨by decide, ?_, ?_⟩
  · have h := readFrame_unmasked_65663 0x82 (List.replicate 65663 0)
      (List.length_replicate _ _)
    have hf : (band (0x82 : Byte) 0x80 != 0) = true := by decide
    have ho : int (band (0x82 : Byte) 0x0F) = Binary := by decide
    rw [hf, ho] at h
    exact h
  · rw [List.length_replicate]
    decide

/-- C15, at the input where the code departs from it: after a length field of
127, the eight bytes 00 00 00 00 00 01 00 00 are resolved to 65663 and not to
their big-endian value 65536, because the bytes are ORed into the length field
itself. -/
theorem C15_length_65536_resolves_to_65663 :
    readPayloadLength [0x00, 0x00, 0x00, 0x00, 0x00, 0x01, 0x00, 0x00] (int (band 0x7F 0x7F))
      = (.ok 65663, []) ∧
    (65663 : Int) ≠ 65536 := by
  decide

/-- C16: when `readFrame` decodes a frame with the header bytes b1 and b2, the
fin it returns is bit 7 of b1 and the opcode is b1 mod 16; the 7-bit length
field is b2 mod 128, which decides how many bytes of extended length are read
and what length is resolved; the frame is masked exactly when bit 7 of b2 is
set, which decides whether four key bytes are read and the payload is XORed.
The bits 4 to 6 of b1 play no part: two streams that differ only in those bits
give the same outcome. -/
theorem C16_header_bit_fields (b1 b2 : Byte) (s : List Byte) :
    (∀ r rest, readFrame (b1 :: b2 :: s) = .returned r rest → r.err = none →
      r.fin = decide (128 ≤ b1.val) ∧
      r.opcode = ((b1.val % 16 : Nat) : Int) ∧
      ∃ raw, raw = (s.drop (extLen ((b2.val % 128 : Nat) : Int)
          + (if 128 ≤ b2.val then 4 else 0))).take
            (resolveLength ((b2.val % 128 : Nat) : Int)
              (s.take (extLen ((b2.val % 128 : Nat) : Int)))).toNat ∧
        r.payload = some (if 128 ≤ b2.val then
          unmask ((s.drop (extLen ((b2.val % 128 : Nat) : Int))).take 4) raw else raw) ∧
        rest = s.drop (extLen ((b2.val % 128 : Nat) : Int)
          + (if 128 ≤ b2.val then 4 else 0) + raw.length)) ∧
    (∀ b1' : Byte, b1'.val % 16 = b1.val % 16 → (128 ≤ b1'.val ↔ 128 ≤ b1.val) →
      readFrame (b1' :: b2 :: s) = readFrame (b1 :: b2 :: s)) := by
  refine ⟨?_, ?_⟩
  · intro r rest hread hok
    obtain ⟨_, c4, c5, hrest, hr⟩ := readFrame_ok_inv b1 b2 s r rest hread hok
    rw [maskLen_eq, (bit_facts b2).2.2] at c5 hrest hr
    rw [(bit_facts b2).2.2] at c4
    rw [(bit_facts b1).1, (bit_facts b1).2.1, (bit_facts b2).1] at hr
    generalize extLen ((b2.val % 128 : Nat) : Int) = e at c4 c5 hrest hr ⊢
    generalize resolveLength ((b2.val % 128 : Nat) : Int) (s.take e) = len at c4 c5 hrest hr ⊢
    generalize (if 128 ≤ b2.val then 4 else 0) = m at c5 hrest hr ⊢
    have hl : ((s.drop (e + m)).take len.toNat).length = len.toNat := by
      rw [List.length_take, List.length_drop]
      omega
    rw [hr]
    refine ⟨rfl, rfl, _, rfl, ?_, ?_⟩
    · simp
    · rw [hrest, hl]
  · intro b1' h16 h128
    rw [readFrame_cases, readFrame_cases, (bit_facts b1).1, (bit_facts b1).2.1,
      (bit_facts b1').1, (bit_facts b1').2.1, h16]
    have : decide (128 ≤ b1'.val) = decide (128 ≤ b1.val) := by
      simp only [decide_eq_decide]
      exact h128
    rw [this]

theorem C16_header_bit_fields_witness :
    ((⟨true, Text, some [0x68, 0x69], none⟩ : FrameResult).fin
        = decide (128 ≤ (0x81 : Byte).val) ∧
      (⟨true, Text, some [0x68, 0x69], none⟩ : FrameResult).opcode
        = (((0x81 : Byte).val % 16 : Nat) : Int) ∧
      ∃ raw, raw = (([0x68, 0x69] : List Byte).drop
          (extLen (((0x02 : Byte).val % 128 : Nat) : Int)
            + (if 128 ≤ (0x02 : Byte).val then 4 else 0))).take
            (resolveLength (((0x02 : Byte).val % 128 : Nat) : Int)
              (([0x68, 0x69] : List Byte).take
                (extLen (((0x02 : Byte).val % 128 : Nat) : Int)))).toNat ∧
        (⟨true, Text, some [0x68, 0x69], none⟩ : FrameResult).payload
          = some (if 128 ≤ (0x02 : Byte).val then
            unmask ((([0x68, 0x69] : List Byte).drop
              (extLen (((0x02 : Byte).val % 128 : Nat) : Int))).take 4) raw else raw) ∧
        ([] : List Byte) = ([0x68, 0x69] : List Byte).drop
          (extLen (((0x02 : Byte).val % 128 : Nat) : Int)
            + (if 128 ≤ (0x02 : Byte).val then 4 else 0) + raw.length)) ∧
    readFrame [0xF1, 0x02, 0x68, 0x69] = readFrame [0x81, 0x02, 0x68, 0x69] :=
  ⟨(C16_header_bit_fields 0x81 0x02 [0x68, 0x69]).1 ⟨true, Text, some [0x68, 0x69], none⟩ []
      (by decide) rfl,
    (C16_header_bit_fields 0x81 0x02 [0x68, 0x69]).2 0xF1 (by decide) (by decide)⟩

/-- C17: when `readFrame` decodes a frame, let w be the payload bytes on the
wire and p the payload returned. They have the same length. If the mask bit of
the second header byte is set, the key is made of four bytes and byte i of p is
byte i of w XOR byte i mod 4 of the key, an index that is within the key. If the
mask bit is clear, p is w. -/
theorem C17_unmasking (b1 b2 : Byte) (s : List Byte) (r : FrameResult) (rest : List Byte)
    (hread : readFrame (b1 :: b2 :: s) = .returned r rest) (hok : r.err = none)
    (key w : List Byte)
    (hkey : key = (s.drop (extLen (int (band b2 0x7F)))).take 4)
    (hw : w = (s.drop (extLen (int (band b2 0x7F)) + maskLen b2)).take
      (resolveLength (int (band b2 0x7F)) (s.take (extLen (int (band b2 0x7F))))).toNat) :
    ∃ p, r.payload = some p ∧ p.length = w.length ∧
      (band b2 0x80 ≠ 0 → key.length = 4 ∧
        ∀ i, i < p.length → i % 4 < key.length ∧
          ∃ wi ki, w[i]? = some wi ∧ key[i % 4]? = some ki ∧ p[i]? = some (bxor wi ki)) ∧
      (band b2 0x80 = 0 → p = w) := by
  obtain ⟨_, _, c5, _, hr⟩ := readFrame_ok_inv b1 b2 s r rest hread hok
  rw [← hw, ← hkey] at hr
  by_cases hm : band b2 0x80 = 0
  · have hb : (band b2 0x80 != 0) = false := by simp [hm]
    rw [hb] at hr
    simp only [Bool.false_eq_true, if_false] at hr
    rw [hr]
    exact ⟨w, rfl, rfl, fun h => absurd hm h, fun _ => rfl⟩
  · have hb : (band b2 0x80 != 0) = true := by simp [hm]
    rw [hb] at hr
    simp only [if_true] at hr
    rw [hr]
    have hml : maskLen b2 = 4 := by
      unfold maskLen
      rw [hb]
      rfl
    have hk4 : key.length = 4 := by
      rw [hkey, List.length_take, List.length_drop]
      omega
    refine ⟨unmask key w, rfl, length_unmask _ _, fun _ => ⟨hk4, ?_⟩, fun h => absurd h hm⟩
    intro i hi
    rw [length_unmask] at hi
    have h4 : i % 4 < key.length := by
      rw [hk4]
      exact Nat.mod_lt _ (by decide)
    refine ⟨h4, w[i], key[i % 4], ?_, ?_, ?_⟩
    · exact List.getElem?_eq_getElem hi
    · exact List.getElem?_eq_getElem h4
    · rw [getElem?_unmask, List.getElem?_eq_getElem hi]
      simp only [Option.map_some']
      congr 2
      rw [List.getD_eq_getElem?_getD, List.getElem?_eq_getElem h4]
      rfl

theorem C17_unmasking_witness :
    ∃ p, (⟨true, Text, some [0x68, 0x69], none⟩ : FrameResult).payload = some p ∧
      p.length = [0x69, 0x6B].length ∧
      (band 0x82 0x80 ≠ 0 → [1, 2, 3, 4].length = 4 ∧
        ∀ i, i < p.length → i % 4 < [1, 2, 3, 4].length ∧
          ∃ wi ki, ([0x69, 0x6B] : List Byte)[i]? = some wi ∧
            ([1, 2, 3, 4] : List Byte)[i % 4]? = some ki ∧ p[i]? = some (bxor wi ki)) ∧
      (band 0x82 0x80 = 0 → p = [0x69, 0x6B]) :=
  C17_unmasking 0x81 0x82 [1, 2, 3, 4, 0x69, 0x6B] ⟨true, Text, some [0x68, 0x69], none⟩ []
    (by decide) rfl [1, 2, 3, 4] [0x69, 0x6B] (by decide) (by decide)

/-- C20: when `readFrame` decodes a frame from a stream, what it has consumed is
the first 2 + e + m + len(payload) bytes, where e is 0, 2 or 8 as the 7-bit
length field is below 126, 126 or 127, and m is 4 when the mask bit is set and 0
otherwise; the rest of the stream is left on the connection. Bytes added after
the stream are left as well, so a frame followed by a second frame is read by
the first call, and the second call starts at the second frame. -/
theorem C20_exact_consumption (f : List Byte) (r : FrameResult) (rest : List Byte)
    (hread : readFrame f = .returned r rest) (hok : r.err = none) :
    ∃ p e m, r.payload = some p ∧
      e = (if (f.getD 1 0).val % 128 < 126 then 0
        else if (f.getD 1 0).val % 128 = 126 then 2 else 8) ∧
      m = (if 128 ≤ (f.getD 1 0).val then 4 else 0) ∧
      2 + e + m + p.length ≤ f.length ∧
      rest = f.drop (2 + e + m + p.length) ∧
      f = f.take (2 + e + m + p.length) ++ rest ∧
      (∀ g, readFrame (f ++ g) = .returned r (rest ++ g)) ∧
      (rest = [] → ∀ g, readFrame (f ++ g) = .returned r g) := by
  have happ := readFrame_append f r rest hread hok
  match f, hread, happ with
  | [], hread, _ =>
    rw [readFrame_nil] at hread
    injection hread with h1 _
    rw [← h1] at hok
    cases hok
  | [b], hread, _ =>
    rw [readFrame_singleton] at hread
    injection hread with h1 _
    rw [← h1] at hok
    cases hok
  | b1 :: b2 :: s, hread, happ =>
    obtain ⟨_, c4, c5, hrest, hr⟩ := readFrame_ok_inv b1 b2 s r rest hread hok
    simp only [List.getD_cons_succ, List.getD_cons_zero]
    rw [extLen_eq, maskLen_eq] at c5 hrest hr
    generalize (if 128 ≤ b2.val then 4 else 0) = m at c5 hrest hr ⊢
    rw [extLen_eq] at c4
    generalize (if b2.val % 128 < 126 then 0 else if b2.val % 128 = 126 then 2 else 8) = e
      at c4 c5 hrest hr ⊢
    generalize resolveLength (int (band b2 0x7F)) (s.take e) = len at c4 c5 hrest hr
    have hl : ((s.drop (e + m)).take len.toNat).length = len.toNat := by
      rw [List.length_take, List.length_drop]
      omega
    have hp : ∃ p, r.payload = some p ∧ p.length = len.toNat := by
      rw [hr]
      refine ⟨_, rfl, ?_⟩
      split
      · rw [length_unmask, hl]
      · rw [hl]
    obtain ⟨p, hp1, hp2⟩ := hp
    have hdrop : rest = (b1 :: b2 :: s).drop (2 + e + m + p.length) := by
      rw [hrest, hp2]
      have : 2 + e + m + len.toNat = (e + m + len.toNat) + 2 := by omega
      rw [this]
      rfl
    refine ⟨p, e, m, hp1, rfl, rfl, ?_, hdrop, ?_, happ, ?_⟩
    · simp only [List.length_cons]
      omega
    · rw [hdrop, List.take_append_drop]
    · intro h0 g
      have := happ g
      rw [h0] at this
      simpa using this

theorem C20_exact_consumption_witness :
    ∃ p e m, (⟨true, Text, some [0x68, 0x69], none⟩ : FrameResult).payload = some p ∧
      e = (if (([0x81, 0x02, 0x68, 0x69, 0x89, 0x00] : List Byte).getD 1 0).val % 128 < 126
        then 0
        else if (([0x81, 0x02, 0x68, 0x69, 0x89, 0x00] : List Byte).getD 1 0).val % 128 = 126
          then 2 else 8) ∧
      m = (if 128 ≤ (([0x81, 0x02, 0x68, 0x69, 0x89, 0x00] : List Byte).getD 1 0).val then 4
        else 0) ∧
      2 + e + m + p.length ≤ ([0x81, 0x02, 0x68, 0x69, 0x89, 0x00] : List Byte).length ∧
      [0x89, 0x00] = ([0x81, 0x02, 0x68, 0x69, 0x89, 0x00] : List Byte).drop
        (2 + e + m + p.length) ∧
      [0x81, 0x02, 0x68, 0x69, 0x89, 0x00]
        = ([0x81, 0x02, 0x68, 0x69, 0x89, 0x00] : List Byte).take (2 + e + m + p.length)
          ++ [0x89, 0x00] ∧
      (∀ g, readFrame ([0x81, 0x02, 0x68, 0x69, 0x89, 0x00] ++ g)
        = .returned ⟨true, Text, some [0x68, 0x69], none⟩ ([0x89, 0x00] ++ g)) ∧
      (([0x89, 0x00] : List Byte) = [] →
        ∀ g, readFrame ([0x81, 0x02, 0x68, 0x69, 0x89, 0x00] ++ g)
          = .returned ⟨true, Text, some [0x68, 0x69], none⟩ g) :=
  C20_exact_consumption [0x81, 0x02, 0x68, 0x69, 0x89, 0x00]
    ⟨true, Text, some [0x68, 0x69], none⟩ [0x89, 0x00] (by decide) rfl

/-! ## The frame writer, continued -/

/-- C18: `sendFrame` writes the header first. If that write fails, it returns
the error and writes nothing more. If it succeeds and the payload is empty, the
header is the only write and `sendFrame` succeeds. Otherwise there are exactly
two writes, the header and then the payload as it was given, and `sendFrame`
returns what the write of the payload returned. -/
theorem C18_sendFrame_writes (c : Conn) (opcode : Opcode) (payload : List Byte) :
    (∀ e, c.writeResults.getD 0 none = some e →
      sendFrame c opcode payload = (some e, ⟨c.input, c.writeResults.drop 1,
        c.trace ++ [.write (frameHeader opcode payload.length) (some e)]⟩)) ∧
    (c.writeResults.getD 0 none = none → payload = [] →
      sendFrame c opcode payload = (none, ⟨c.input, c.writeResults.drop 1,
        c.trace ++ [.write (frameHeader opcode payload.length) none]⟩)) ∧
    (c.writeResults.getD 0 none = none → payload ≠ [] →
      sendFrame c opcode payload = (c.writeResults.getD 1 none,
        ⟨c.input, c.writeResults.drop 2,
          c.trace ++ [.write (frameHeader opcode payload.length) none,
            .write payload (c.writeResults.getD 1 none)]⟩)) := by
  refine ⟨?_, ?_, ?_⟩
  · intro e he
    unfold sendFrame
    simp only [write_eq, he]
  · intro h1 hp
    subst hp
    unfold sendFrame
    simp only [write_eq, h1]
    simp
  · intro h1 hp
    have hlen : ((payload.length : Nat) : Int) > 0 := by
      cases payload with
      | nil => exact absurd rfl hp
      | cons a t => simp
    unfold sendFrame
    simp only [write_eq, h1, if_pos hlen]
    have hd : (c.writeResults.drop 1).getD 0 none = c.writeResults.getD 1 none := by
      rcases c with ⟨inp, wr, tr⟩
      cases wr with
      | nil => rfl
      | cons r rs => rfl
    rw [hd]
    cases c.writeResults.getD 1 none <;> simp

theorem C18_sendFrame_writes_witness :
    sendFrame ⟨[], [none, some (.writeFailed 7)], []⟩ Text [0x68]
      = ((([none, some (.writeFailed 7)] : List (Option GoError)).getD 1 none),
        ⟨[], ([none, some (.writeFailed 7)] : List (Option GoError)).drop 2,
          [] ++ [.write (frameHeader Text ([0x68] : List Byte).length) none,
            .write [0x68] (([none, some (.writeFailed 7)] : List (Option GoError)).getD 1
              none)]⟩) :=
  (C18_sendFrame_writes ⟨[], [none, some (.writeFailed 7)], []⟩ Text [0x68]).2.2 (by decide)
    (by decide)

/-! ## The session loop, continued -/

/-- C11, at the input where the code departs from it: a final Binary frame with
the payload 1, 2, 3. The session creates `output.bin`, prints "Binary: written
to file", writes no frame and goes on to the next read; the payload is handed
to nothing, and the file is left empty. -/
theorem C11_binary_payload_is_not_stored :
    handleWebsocketConnection ⟨[0x82, 0x03, 1, 2, 3], [], []⟩
      = (.returned, ⟨[], [], [.read, .create, .println .binaryWritten, .read,
          .println .connectionClosedByClient, .close]⟩) ∧
    outputFile (handleWebsocketConnection ⟨[0x82, 0x03, 1, 2, 3], [], []⟩).2.trace = some [] ∧
    outputFile (handleWebsocketConnection ⟨[0x82, 0x03, 1, 2, 3], [], []⟩).2.trace
      ≠ some [1, 2, 3] := by
  decide

/-- C12, as stated, fails: the write of the Pong reply to a final Ping fails,
and the session goes on to read and handle the next frame. -/
theorem C12_failed_pong_write_is_ignored :
    handleWebsocketConnection ⟨[0x89, 0x00, 0x81, 0x00], [some (.writeFailed 1)], []⟩
      = (.returned, ⟨[], [], [.read, .write [0x8A, 0x00] (some (.writeFailed 1)), .read,
          .println (.text []), .read, .println .connectionClosedByClient, .close]⟩) := by
  decide

/-- C12, amended: when a `sendFrame` call of the session fails and it is not
the Pong reply to a final Ping, that is, when it is the echo of a Close frame or
the Pong reply to a Ping with fin = false, `handleWebsocketConnection` returns
after that frame, reads nothing more from the connection and closes it; the
write that failed is among the events of that pass. -/
theorem C12_failed_write_ends_session (c : Conn) (fin : Bool) (o : Opcode)
    (p rest : List Byte) (e : GoError)
    (hread : readFrame c.input = .returned ⟨fin, o, some p, none⟩ rest)
    (ho : o = Close ∨ (o = Ping ∧ fin = false))
    (hfail : (sendFrame ⟨rest, c.writeResults, c.trace ++ [.read]⟩
      (if o = Close then Close else Pong) p).1 = some e) :
    ∃ c' evs, handleWebsocketConnection c = (.returned, c') ∧ c'.input = rest ∧
      c'.trace = c.trace ++ Event.read :: evs ++ [Event.close] ∧
      Event.read ∉ evs ∧ (∃ buf, Event.write buf (some e) ∈ evs) := by
  rcases ho with ho | ⟨ho, hf⟩
  · subst ho
    rw [if_pos rfl] at hfail
    obtain ⟨wr, evs, hs, hnr, hw⟩ := sendFrame_failed _ Close p e hfail
    refine ⟨⟨rest, wr, c.trace ++ [.read] ++ evs ++ [.println (.close p), .close]⟩,
      evs ++ [.println (.close p)], ?_, rfl, by simp, by simp [hnr], ?_⟩
    · unfold handleWebsocketConnection sessionLoop loopBody
      rw [hread]
      simp only [Option.getD_some]
      unfold dispatch
      rw [if_neg (by decide), if_neg (by decide), if_pos rfl, hs]
      simp [Conn.emit]
    · obtain ⟨buf, hb⟩ := hw
      exact ⟨buf, by simp [hb]⟩
  · subst ho
    subst hf
    rw [if_neg (by decide)] at hfail
    obtain ⟨wr, evs, hs, hnr, hw⟩ := sendFrame_failed _ Pong p e hfail
    refine ⟨⟨rest, wr, c.trace ++ [.read] ++ evs
        ++ [.println .continuationNotSupported, .close]⟩,
      evs ++ [.println .continuationNotSupported], ?_, rfl, by simp, by simp [hnr], ?_⟩
    · unfold handleWebsocketConnection sessionLoop loopBody
      rw [hread]
      simp only [Option.getD_some]
      unfold dispatch
      rw [if_neg (by decide), if_pos rfl, hs]
      simp [Conn.emit]
    · obtain ⟨buf, hb⟩ := hw
      exact ⟨buf, by simp [hb]⟩

theorem C12_failed_write_ends_session_witness :
    ∃ c' evs,
      handleWebsocketConnection ⟨[0x09, 0x00, 0x81, 0x00], [some (.writeFailed 1)], []⟩
        = (.returned, c') ∧
      c'.input = [0x81, 0x00] ∧
      c'.trace = ([] : List Event) ++ Event.read :: evs ++ [Event.close] ∧
      Event.read ∉ evs ∧ (∃ buf, Event.write buf (some (.writeFailed 1)) ∈ evs) :=
  C12_failed_write_ends_session ⟨[0x09, 0x00, 0x81, 0x00], [some (.writeFailed 1)], []⟩
    false Ping [] [0x81, 0x00] (.writeFailed 1) (by decide) (Or.inr ⟨rfl, rfl⟩) (by decide)

/-- When the session reads a final frame whose opcode is Pong or a reserved
value (3 to 7, 11 to 15), the pass through the loop prints the opcode, writes
nothing, and the loop goes on to another pass, which starts with a read.
`readFrame` itself returns any opcode without an error: it returns the low four
bits of the first byte whatever they are. -/
theorem loopBody_non_actionable_opcode (c : Conn) (o : Opcode) (p rest : List Byte)
    (hread : readFrame c.input = .returned ⟨true, o, some p, none⟩ rest)
    (ho : o = Pong ∨ (3 ≤ o ∧ o ≤ 7) ∨ (11 ≤ o ∧ o ≤ 15)) :
    loopBody c = (none, ⟨rest, c.writeResults,
      c.trace ++ [.read, .println (.unsupportedOpcode o)]⟩) ∧
    (∀ fuel, sessionLoop (fuel + 1) c = sessionLoop fuel ⟨rest, c.writeResults,
      c.trace ++ [.read, .println (.unsupportedOpcode o)]⟩) ∧
    (∃ evs, (loopBody ⟨rest, c.writeResults,
        c.trace ++ [.read, .println (.unsupportedOpcode o)]⟩).2.trace
      = (c.trace ++ [.read, .println (.unsupportedOpcode o)]) ++ Event.read :: evs) ∧
    (∀ (b1 : Byte) (q tail : List Byte), q.length ≤ 125 → band b1 0x80 ≠ 0 →
      int (band b1 0x0F) = o →
      readFrame (b1 :: byteOfNat q.length :: (q ++ tail))
        = .returned ⟨true, o, some q, none⟩ tail) := by
  have h1 : o ≠ Text := by
    intro heq
    rw [heq] at ho
    exact absurd ho (by decide)
  have h2 : o ≠ Ping := by
    intro heq
    rw [heq] at ho
    exact absurd ho (by decide)
  have h3 : o ≠ Close := by
    intro heq
    rw [heq] at ho
    exact absurd ho (by decide)
  have h4 : o ≠ Binary := by
    intro heq
    rw [heq] at ho
    exact absurd ho (by decide)
  have hl : loopBody c = (none, ⟨rest, c.writeResults,
      c.trace ++ [.read, .println (.unsupportedOpcode o)]⟩) := by
    unfold loopBody
    rw [hread]
    simp only [Option.getD_some]
    unfold dispatch
    rw [if_neg h1, if_neg h2, if_neg h3, if_neg h4]
    simp [Conn.emit]
  refine ⟨hl, ?_, loopBody_reads_first _, ?_⟩
  · intro fuel
    show (match loopBody c with
      | (some e, c1) => (e, c1)
      | (none, c1) => sessionLoop fuel c1) = _
    rw [hl]
  · intro b1 q tail hq hfin hop
    rw [readFrame_small b1 q tail hq, hop]
    have : (band b1 0x80 != 0) = true := by simpa using hfin
    rw [this]

/-- C14, at the input where the code departs from it: a final frame with the
reserved opcode 3 and a payload of 65536 bytes, sent with the 64-bit length
form. `readFrame` resolves the length to 65663 and fails with
`io.ErrUnexpectedEOF`, and the session prints the error and ends instead of
going on to the next read. -/
theorem C14_reserved_opcode_frame_ends_session :
    readFrame (0x83 :: 0x7F :: [0, 0, 0, 0, 0, 1, 0, 0] ++ List.replicate 65536 0)
      = .returned (failed .ErrUnexpectedEOF) [] ∧
    handleWebsocketConnection
        ⟨0x83 :: 0x7F :: [0, 0, 0, 0, 0, 1, 0, 0] ++ List.replicate 65536 0, [], []⟩
      = (.returned, ⟨[], [], [.read, .println (.readFrameErr .ErrUnexpectedEOF), .close]⟩) := by
  have h := readFrame_unmasked_65536 0x83 (List.replicate 65536 0) (List.length_replicate _ _)
  refine ⟨h, ?_⟩
  have h2 := handle_of_readFrame_error
    ⟨0x83 :: 0x7F :: [0, 0, 0, 0, 0, 1, 0, 0] ++ List.replicate 65536 0, [], []⟩
    .ErrUnexpectedEOF [] h
  rw [h2]
  rfl

/-- C19: every run of `handleWebsocketConnection` leaves the loop, by the end of
the stream, by another error of `readFrame`, by a Close frame, by a frame that
is not final, or by a panic, and the connection is then closed exactly once:
`conn.Close()` is the last thing the run does, after all its reads and writes,
and it is not called before. -/
theorem C19_connection_closed_once (c : Conn) :
    (handleWebsocketConnection c).1 ≠ .outOfFuel ∧
    ∃ evs, (handleWebsocketConnection c).2.trace = c.trace ++ evs ++ [Event.close] ∧
      Event.close ∉ evs ∧ (evs ++ [Event.close]).count Event.close = 1 := by
  refine ⟨handleWebsocketConnection_terminates c, ?_⟩
  obtain ⟨evs, he, hn⟩ := sessionLoop_no_close (c.input.length + 1) c
  refine ⟨evs, ?_, hn, ?_⟩
  · unfold handleWebsocketConnection
    simp [Conn.emit, he]
  · rw [List.count_append, List.count_eq_zero_of_not_mem hn]
    rfl

end GoWebsocket
